import Mathlib

/-!
Verification of the Customer-Support-AI-Agent UI-automation core.

This file is a shallow embedding, in Lean 4, of the DOM step execution and
recovery engine of the repository (`agents/generic_ui_agent.py` and the thin
shim `agents/ui_agent.py`), together with theorems settling the frozen claims
about it.

Conventions of the embedding:
* Python dicts keyed by strings become association lists (`List (String × _)`),
  which preserve Python's insertion order (`dict.setdefault` appends at the
  end, updates happen in place).
* Python floats produced by `successes / tries` become rationals (`ℚ`);
  both numerator and denominator are small naturals, so no precision is lost.
* Code that interacts with the outside world (Playwright page handles,
  the adapter registry, IMAP, the LLM) is modelled by explicit environment
  records whose fields give the outcome of each primitive; a primitive whose
  Python call site may raise is given an `Except` outcome.
* `try/except` blocks become `Except` case analysis; a function that Python
  can only leave by `return` is total in the embedding.
-/

set_option maxRecDepth 4000

namespace SupportAgent

/-! ## Selector scorer (`GenericUIAgent._score_and_order_selectors`,
`GenericUIAgent._update_selector_stats`)

`self.selector_stats` is a JSON object mapping selector strings to
`{"tries": n, "successes": m}`.  The entries are created zero-valued by
`setdefault` and incremented in place, so both fields are always present on
every entry the code ever creates; loaded files may contain anything, which
the code reads through `.get(_, 0)` defaults — the embedding keeps both
fields as naturals. -/

structure SelStat where
  tries : Nat
  successes : Nat
deriving DecidableEq, Repr

/-- `self.selector_stats.get(s, {})` followed by `.get("tries", 0)` /
`.get("successes", 0)`: a missing entry behaves as zero tries and zero
successes. -/
def getStat (stats : List (String × SelStat)) (s : String) : SelStat :=
  match stats.lookup s with
  | some st => st
  | none => ⟨0, 0⟩

/-- The inner `score` closure of `_score_and_order_selectors`:
`0.0` when `tries == 0`, else `successes / tries`. -/
def selectorScore (stats : List (String × SelStat)) (s : String) : ℚ :=
  let st := getStat stats s
  if st.tries = 0 then 0 else (st.successes : ℚ) / (st.tries : ℚ)

/-- One insertion step of a stable descending sort: the new element `x`
(which occurs earlier in the input than everything in `l`) passes over
exactly the elements of strictly greater key, so equal keys keep the
original relative order.  This is the list-level semantics of CPython's
stable `sorted(_, key=score, reverse=True)`. -/
def insertDesc (key : String → ℚ) (x : String) : List String → List String
  | [] => [x]
  | y :: ys => if key y ≤ key x then x :: y :: ys else y :: insertDesc key x ys

/-- Stable descending insertion sort, the semantics of
`sorted(selectors, key=lambda x: score(x), reverse=True)`. -/
def sortDesc (key : String → ℚ) : List String → List String
  | [] => []
  | x :: xs => insertDesc key x (sortDesc key xs)

/-- `GenericUIAgent._score_and_order_selectors`. -/
def score_and_order_selectors (stats : List (String × SelStat)) (selectors : List String) :
    List String :=
  sortDesc (selectorScore stats) selectors

/-- `GenericUIAgent._update_selector_stats`: `setdefault(selector, {"tries": 0,
"successes": 0})`, then increment `tries`, and `successes` when `success`.
(The trailing `_save_selector_stats` call persists the table and has no
effect on it.) -/
def update_selector_stats (stats : List (String × SelStat)) (selector : String)
    (success : Bool) : List (String × SelStat) :=
  match stats with
  | [] => [(selector, ⟨1, if success then 1 else 0⟩)]
  | (k, st) :: rest =>
    if k = selector then
      (k, ⟨st.tries + 1, st.successes + if success then 1 else 0⟩) :: rest
    else
      (k, st) :: update_selector_stats rest selector success

/-- A sequence of `record` calls for one locator, oldest first. -/
def applyRecords (stats : List (String × SelStat)) (selector : String)
    (outcomes : List Bool) : List (String × SelStat) :=
  outcomes.foldl (fun st b => update_selector_stats st selector b) stats

/-! ### Scorer lemmas -/

theorem insertDesc_perm (key : String → ℚ) (x : String) (l : List String) :
    List.Perm (insertDesc key x l) (x :: l) := by
  induction l with
  | nil => simp [insertDesc]
  | cons y ys ih =>
    by_cases h : key y ≤ key x
    · rw [insertDesc, if_pos h]
    · rw [insertDesc, if_neg h]
      exact (ih.cons y).trans (List.Perm.swap x y ys)

theorem sortDesc_perm (key : String → ℚ) (l : List String) :
    List.Perm (sortDesc key l) l := by
  induction l with
  | nil => simp [sortDesc]
  | cons x xs ih =>
    exact (insertDesc_perm key x _).trans (ih.cons x)

theorem insertDesc_pairwise (key : String → ℚ) (x : String) (l : List String)
    (h : l.Pairwise (fun a b => key b ≤ key a)) :
    (insertDesc key x l).Pairwise (fun a b => key b ≤ key a) := by
  induction l with
  | nil => simp [insertDesc]
  | cons y ys ih =>
    rcases List.pairwise_cons.mp h with ⟨hy, hys⟩
    by_cases hxy : key y ≤ key x
    · rw [insertDesc, if_pos hxy]
      refine List.pairwise_cons.mpr ⟨?_, h⟩
      intro b hb
      rcases List.mem_cons.mp hb with hb | hb
      · exact hb ▸ hxy
      · exact le_trans (hy b hb) hxy
    · rw [insertDesc, if_neg hxy]
      refine List.pairwise_cons.mpr ⟨?_, ih hys⟩
      intro b hb
      have hb' := (insertDesc_perm key x ys).mem_iff.mp hb
      rcases List.mem_cons.mp hb' with hb' | hb'
      · subst hb'
        exact le_of_lt (lt_of_not_le hxy)
      · exact hy b hb'

theorem sortDesc_pairwise (key : String → ℚ) (l : List String) :
    (sortDesc key l).Pairwise (fun a b => key b ≤ key a) := by
  induction l with
  | nil => simp [sortDesc]
  | cons x xs ih => exact insertDesc_pairwise key x _ ih

theorem insertDesc_filter_eq (key : String → ℚ) (x : String) (l : List String)
    (q : ℚ) (hx : key x = q) :
    (insertDesc key x l).filter (fun s => decide (key s = q)) =
      x :: l.filter (fun s => decide (key s = q)) := by
  induction l with
  | nil => simp [insertDesc, hx]
  | cons y ys ih =>
    by_cases hxy : key y ≤ key x
    · rw [insertDesc, if_pos hxy, List.filter_cons, if_pos (by simp [hx])]
    · have hyq : ¬ key y = q := by
        intro hq
        exact hxy (le_of_eq (hq.trans hx.symm))
      rw [insertDesc, if_neg hxy, List.filter_cons, if_neg (by simp [hyq]), ih,
        List.filter_cons, if_neg (by simp [hyq])]

theorem insertDesc_filter_ne (key : String → ℚ) (x : String) (l : List String)
    (q : ℚ) (hx : ¬ key x = q) :
    (insertDesc key x l).filter (fun s => decide (key s = q)) =
      l.filter (fun s => decide (key s = q)) := by
  induction l with
  | nil => simp [insertDesc, hx]
  | cons y ys ih =>
    by_cases hxy : key y ≤ key x
    · rw [insertDesc, if_pos hxy, List.filter_cons, if_neg (by simp [hx])]
    · rw [insertDesc, if_neg hxy, List.filter_cons, ih, List.filter_cons]

theorem sortDesc_filter (key : String → ℚ) (l : List String) (q : ℚ) :
    (sortDesc key l).filter (fun s => decide (key s = q)) =
      l.filter (fun s => decide (key s = q)) := by
  induction l with
  | nil => simp [sortDesc]
  | cons x xs ih =>
    by_cases hx : key x = q
    · rw [sortDesc, insertDesc_filter_eq key x _ q hx, ih, List.filter_cons]
      simp [hx]
    · rw [sortDesc, insertDesc_filter_ne key x _ q hx, ih, List.filter_cons]
      simp [hx]

theorem getStat_update_self (stats : List (String × SelStat)) (s : String) (b : Bool) :
    getStat (update_selector_stats stats s b) s =
      ⟨(getStat stats s).tries + 1,
       (getStat stats s).successes + if b then 1 else 0⟩ := by
  induction stats with
  | nil => simp [update_selector_stats, getStat, List.lookup]
  | cons p rest ih =>
    obtain ⟨k, st⟩ := p
    by_cases hk : k = s
    · subst hk
      simp [update_selector_stats, getStat, List.lookup]
    · have hk' : (s == k) = false := by
        simp [beq_iff_eq]
        exact fun h => hk h.symm
      simp [update_selector_stats, hk, getStat, List.lookup, hk'] at ih ⊢
      exact ih

theorem applyRecords_getStat (selector : String) (outcomes : List Bool)
    (stats : List (String × SelStat)) :
    getStat (applyRecords stats selector outcomes) selector =
      ⟨(getStat stats selector).tries + outcomes.length,
       (getStat stats selector).successes + outcomes.count true⟩ := by
  induction outcomes generalizing stats with
  | nil => simp [applyRecords]
  | cons b bs ih =>
    simp only [applyRecords, List.foldl_cons] at *
    rw [ih, getStat_update_self]
    rcases b with _ | _ <;> simp [List.count_cons] <;> omega

theorem update_invariant (stats : List (String × SelStat)) (s : String) (b : Bool)
    (h : ∀ p ∈ stats, p.2.successes ≤ p.2.tries) :
    ∀ p ∈ update_selector_stats stats s b, p.2.successes ≤ p.2.tries := by
  induction stats with
  | nil =>
    intro p hp
    simp [update_selector_stats] at hp
    subst hp
    rcases b with _ | _ <;> simp
  | cons q rest ih =>
    obtain ⟨k, st⟩ := q
    intro p hp
    by_cases hk : k = s
    · simp [update_selector_stats, hk] at hp
      rcases hp with hp | hp
      · subst hp
        have := h (k, st) (by simp)
        simp at this
        rcases b with _ | _ <;> simp <;> omega
      · exact h p (List.mem_cons_of_mem _ hp)
    · simp only [update_selector_stats, if_neg hk, List.mem_cons] at hp
      rcases hp with hp | hp
      · subst hp
        exact h (k, st) (by simp)
      · exact ih (fun r hr => h r (List.mem_cons_of_mem _ hr)) p hp

/-! ### Claim theorems about the scorer -/

/-- C4: `_score_and_order_selectors` returns a permutation of its input (no
candidate dropped or duplicated), sorted descending by `score`, and
candidates of equal score keep their original relative order: for every
score value `q`, the sublist of candidates scoring `q` is unchanged. -/
theorem order_perm_sorted_stable (stats : List (String × SelStat))
    (selectors : List String) :
    List.Perm (score_and_order_selectors stats selectors) selectors ∧
    (score_and_order_selectors stats selectors).Pairwise
      (fun a b => selectorScore stats b ≤ selectorScore stats a) ∧
    ∀ q : ℚ,
      (score_and_order_selectors stats selectors).filter
          (fun s => decide (selectorScore stats s = q)) =
        selectors.filter (fun s => decide (selectorScore stats s = q)) := by
  refine ⟨sortDesc_perm _ _, sortDesc_pairwise _ _, fun q => sortDesc_filter _ _ q⟩

/-- C5: `score(locator)` is `successes / tries` when the recorded tries are
positive, and `0.0` both for a locator absent from the stats table and for
one whose entry has zero tries. -/
theorem score_spec (stats : List (String × SelStat)) (s : String) :
    (stats.lookup s = none → selectorScore stats s = 0) ∧
    ((getStat stats s).tries = 0 → selectorScore stats s = 0) ∧
    (0 < (getStat stats s).tries →
      selectorScore stats s =
        ((getStat stats s).successes : ℚ) / ((getStat stats s).tries : ℚ)) := by
  refine ⟨?_, ?_, ?_⟩
  · intro h
    simp [selectorScore, getStat, h]
  · intro h
    simp [selectorScore, h]
  · intro h
    have h' : (getStat stats s).tries ≠ 0 := by omega
    simp [selectorScore, h']

/-- Closed witness for C5: on the table `[("a", {tries := 4, successes := 3})]`
the locator `"a"` scores `3/4` and the never-attempted locator `"b"` scores
`0`. -/
theorem score_spec_witness :
    ([(("a" : String), (⟨4, 3⟩ : SelStat))].lookup "b" = none ∧
      selectorScore [("a", ⟨4, 3⟩)] "b" = 0) ∧
    (0 < (getStat [(("a" : String), (⟨4, 3⟩ : SelStat))] "a").tries ∧
      selectorScore [("a", ⟨4, 3⟩)] "a" = (3 : ℚ) / 4) := by
  constructor
  · exact ⟨by decide, (score_spec [("a", ⟨4, 3⟩)] "b").1 (by decide)⟩
  · refine ⟨by decide, ?_⟩
    have h := (score_spec [("a", ⟨4, 3⟩)] "a").2.2 (by decide)
    simpa [getStat, List.lookup] using h

/-- C6: after `N` `record` calls for a locator of which `S` report success
(starting from a table with no entry for it), the locator's stats are
`{tries := N, successes := S}` — so its score is `S / N` — and a single
`record` call preserves the invariant `successes ≤ tries` for every entry
of the table (hence it holds after every record operation). -/
theorem record_counts_and_invariant (stats : List (String × SelStat))
    (s : String) (outcomes : List Bool) :
    (stats.lookup s = none →
      getStat (applyRecords stats s outcomes) s =
        ⟨outcomes.length, outcomes.count true⟩) ∧
    (stats.lookup s = none → outcomes ≠ [] →
      selectorScore (applyRecords stats s outcomes) s =
        (outcomes.count true : ℚ) / (outcomes.length : ℚ)) ∧
    (∀ b : Bool, (∀ p ∈ stats, p.2.successes ≤ p.2.tries) →
      ∀ p ∈ update_selector_stats stats s b, p.2.successes ≤ p.2.tries) := by
  have hbase : stats.lookup s = none → getStat stats s = ⟨0, 0⟩ := by
    intro h
    simp [getStat, h]
  refine ⟨?_, ?_, fun b h => update_invariant stats s b h⟩
  · intro h
    rw [applyRecords_getStat, hbase h]
    simp
  · intro h hne
    have hstat := (applyRecords_getStat s outcomes stats)
    rw [hbase h] at hstat
    simp only [Nat.zero_add] at hstat
    have hlen : outcomes.length ≠ 0 := by
      simpa [List.length_eq_zero] using hne
    simp [selectorScore, hstat, hlen]

/-- Closed witness for C6: recording `[true, false, true]` for a fresh
locator yields `tries = 3`, `successes = 2`, score `2/3`, and the
`successes ≤ tries` invariant is preserved by a further record. -/
theorem record_counts_and_invariant_witness :
    getStat (applyRecords [] "sel" [true, false, true]) "sel" = ⟨3, 2⟩ ∧
    selectorScore (applyRecords [] "sel" [true, false, true]) "sel" = (2 : ℚ) / 3 ∧
    ∀ p ∈ update_selector_stats (applyRecords [] "sel" [true, false, true]) "sel" false,
      p.2.successes ≤ p.2.tries := by
  have h := record_counts_and_invariant [] "sel" [true, false, true]
  refine ⟨?_, ?_, ?_⟩
  · simpa using h.1 (by decide)
  · simpa using h.2.1 (by decide) (by decide)
  · intro p hp
    have h2 := (record_counts_and_invariant (applyRecords [] "sel" [true, false, true])
      "sel" []).2.2 false (by decide)
    exact h2 p hp

/-! ## ActionExecutor (`GenericUIAgent.safe_fill`, `GenericUIAgent.safe_click`)

Each attempt of the attempt loop interacts with the live page; the
environment assigns every `(selector, attempt-index)` pair the outcome of
that interaction.  An attempt of `safe_fill` first waits for the selector
(which may time out or raise), then tries `page.fill` (plus the guarded
event dispatches, which cannot fail the attempt), and on failure the
`eval_on_selector` value-setting fallback.  On a successful attempt the
code records one success and returns; otherwise it records one failure at
the bottom of the attempt loop and continues. -/

inductive FillAttempt where
  /-- `page.fill` succeeded. -/
  | fillOk
  /-- `page.fill` raised but the `eval_on_selector` fallback succeeded. -/
  | evalOk
  /-- both `page.fill` and the fallback raised (`fill_attempt_failed`). -/
  | bothFail
  /-- `wait_for_selector` raised `PlaywrightTimeoutError`. -/
  | waitTimeout
  /-- `wait_for_selector` raised some other exception. -/
  | waitError
deriving DecidableEq, Repr

def FillAttempt.succeeded : FillAttempt → Bool
  | fillOk => true
  | evalOk => true
  | _ => false

inductive ClickAttempt where
  /-- `wait_for_selector` and `page.click` succeeded. -/
  | ok
  /-- `PlaywrightTimeoutError`. -/
  | timeout
  /-- some other exception. -/
  | error
deriving DecidableEq, Repr

def ClickAttempt.succeeded : ClickAttempt → Bool
  | ok => true
  | _ => false

/-- The `for attempt in range(per_selector_retries)` loop of `safe_fill`
for one selector: returns the selector on success together with the
chronological list of scorer records made (`(selector, success?)`). -/
def fillSelLoop (env : String → Nat → FillAttempt) (s : String) :
    Nat → Nat → Option String × List (String × Bool)
  | 0, _ => (none, [])
  | fuel + 1, idx =>
    if (env s idx).succeeded then
      (some s, [(s, true)])
    else
      let r := fillSelLoop env s fuel (idx + 1)
      (r.1, (s, false) :: r.2)

/-- The outer selector loop of `safe_fill` (selectors already
scorer-ordered). -/
def safeFillGo (env : String → Nat → FillAttempt) (retries : Nat) :
    List String → (Bool × Option String) × List (String × Bool)
  | [] => ((false, none), [])
  | s :: rest =>
    let r := fillSelLoop env s retries 0
    match r.1 with
    | some u => ((true, some u), r.2)
    | none =>
      let rr := safeFillGo env retries rest
      (rr.1, r.2 ++ rr.2)

/-- `GenericUIAgent.safe_fill` (the `value`, `timeout` and the guarded
event dispatches do not influence control flow and are absorbed into the
environment's attempt outcomes). -/
def safe_fill (stats : List (String × SelStat)) (env : String → Nat → FillAttempt)
    (selectors : List String) (per_selector_retries : Nat) :
    (Bool × Option String) × List (String × Bool) :=
  safeFillGo env per_selector_retries (score_and_order_selectors stats selectors)

/-- The attempt loop of `safe_click` for one selector. -/
def clickSelLoop (env : String → Nat → ClickAttempt) (s : String) :
    Nat → Nat → Option String × List (String × Bool)
  | 0, _ => (none, [])
  | fuel + 1, idx =>
    if (env s idx).succeeded then
      (some s, [(s, true)])
    else
      let r := clickSelLoop env s fuel (idx + 1)
      (r.1, (s, false) :: r.2)

def safeClickGo (env : String → Nat → ClickAttempt) (retries : Nat) :
    List String → (Bool × Option String) × List (String × Bool)
  | [] => ((false, none), [])
  | s :: rest =>
    let r := clickSelLoop env s retries 0
    match r.1 with
    | some u => ((true, some u), r.2)
    | none =>
      let rr := safeClickGo env retries rest
      (rr.1, r.2 ++ rr.2)

/-- `GenericUIAgent.safe_click`. -/
def safe_click (stats : List (String × SelStat)) (env : String → Nat → ClickAttempt)
    (selectors : List String) (per_selector_retries : Nat) :
    (Bool × Option String) × List (String × Bool) :=
  safeClickGo env per_selector_retries (score_and_order_selectors stats selectors)

/-! ### Lemmas for exhaustion behaviour -/

theorem fillSelLoop_all_fail (env : String → Nat → FillAttempt) (s : String)
    (h : ∀ i, (env s i).succeeded = false) :
    ∀ fuel idx, fillSelLoop env s fuel idx = (none, List.replicate fuel (s, false)) := by
  intro fuel
  induction fuel with
  | zero => intro idx; simp [fillSelLoop]
  | succ n ih =>
    intro idx
    simp [fillSelLoop, h idx, ih (idx + 1), List.replicate_succ]

theorem safeFillGo_all_fail (env : String → Nat → FillAttempt) (retries : Nat)
    (l : List String) (h : ∀ s i, (env s i).succeeded = false) :
    safeFillGo env retries l =
      ((false, none), l.flatMap fun s => List.replicate retries (s, false)) := by
  induction l with
  | nil => simp [safeFillGo]
  | cons s rest ih =>
    simp [safeFillGo, fillSelLoop_all_fail env s (h s) retries 0, ih]

theorem clickSelLoop_all_fail (env : String → Nat → ClickAttempt) (s : String)
    (h : ∀ i, (env s i).succeeded = false) :
    ∀ fuel idx, clickSelLoop env s fuel idx = (none, List.replicate fuel (s, false)) := by
  intro fuel
  induction fuel with
  | zero => intro idx; simp [clickSelLoop]
  | succ n ih =>
    intro idx
    simp [clickSelLoop, h idx, ih (idx + 1), List.replicate_succ]

theorem safeClickGo_all_fail (env : String → Nat → ClickAttempt) (retries : Nat)
    (l : List String) (h : ∀ s i, (env s i).succeeded = false) :
    safeClickGo env retries l =
      ((false, none), l.flatMap fun s => List.replicate retries (s, false)) := by
  induction l with
  | nil => simp [safeClickGo]
  | cons s rest ih =>
    simp [safeClickGo, clickSelLoop_all_fail env s (h s) retries 0, ih]

theorem count_flatMap_replicate_zero (r : Nat) (l : List String) (s : String)
    (hs : s ∉ l) :
    ((l.flatMap fun t => List.replicate r ((t, false) : String × Bool)).count (s, false)) = 0 := by
  induction l with
  | nil => simp
  | cons t ts ih =>
    have hts : s ∉ ts := fun h => hs (List.mem_cons_of_mem _ h)
    have hne : s ≠ t := fun h => hs (by simp [h])
    simp [List.count_append, ih hts, List.count_replicate, hne, Ne.symm hne]

theorem count_flatMap_replicate (r : Nat) (l : List String) (s : String)
    (hnd : l.Nodup) (hs : s ∈ l) :
    ((l.flatMap fun t => List.replicate r ((t, false) : String × Bool)).count (s, false)) = r := by
  induction l with
  | nil => simp at hs
  | cons t ts ih =>
    rcases List.nodup_cons.mp hnd with ⟨hnotmem, hnd'⟩
    rcases List.mem_cons.mp hs with hst | hs'
    · subst hst
      simp [List.count_append, List.count_replicate,
        count_flatMap_replicate_zero r ts s hnotmem]
    · have hne : s ≠ t := by
        intro h
        exact hnotmem (h ▸ hs')
      simp [List.count_append, List.count_replicate, ih hnd' hs', hne, Ne.symm hne]

/-! ### Claim theorems about Fill/Click exhaustion -/

/-- C3 counterexample: with `per_selector_retries = 2` and a single
candidate whose wait always times out, `safe_fill` does return Failure but
records TWO failed attempts for that candidate — one per retry attempt —
not exactly one per candidate tried as the claim states. -/
theorem fill_retry_counterexample :
    safe_fill [] (fun _ _ => FillAttempt.waitTimeout) ["sel1"] 2 =
      ((false, none), [("sel1", false), ("sel1", false)]) ∧
    ¬ (([(("sel1" : String), false), ("sel1", false)]).count ("sel1", false) = 1) := by
  constructor
  · rfl
  · decide

/-- C3, amended: when every attempt of every candidate fails, `safe_fill`
and `safe_click` return Failure `(false, none)` and record exactly one
failed attempt per retry attempt of each candidate — that is,
`per_selector_retries` failure records per candidate (so exactly one per
candidate under the default `per_selector_retries = 1`), never more than
the configured retry count. -/
theorem fill_click_exhaustion (stats : List (String × SelStat))
    (envF : String → Nat → FillAttempt) (envC : String → Nat → ClickAttempt)
    (selectors : List String) (retries : Nat)
    (hF : ∀ s i, (envF s i).succeeded = false)
    (hC : ∀ s i, (envC s i).succeeded = false) :
    safe_fill stats envF selectors retries =
      ((false, none),
       (score_and_order_selectors stats selectors).flatMap
         fun s => List.replicate retries (s, false)) ∧
    safe_click stats envC selectors retries =
      ((false, none),
       (score_and_order_selectors stats selectors).flatMap
         fun s => List.replicate retries (s, false)) ∧
    (selectors.Nodup → ∀ s ∈ selectors,
      ((safe_fill stats envF selectors retries).2.count (s, false) = retries ∧
       (safe_click stats envC selectors retries).2.count (s, false) = retries)) := by
  have hperm := sortDesc_perm (selectorScore stats) selectors
  refine ⟨safeFillGo_all_fail envF retries _ hF, safeClickGo_all_fail envC retries _ hC, ?_⟩
  intro hnd s hs
  have hnd' : (score_and_order_selectors stats selectors).Nodup :=
    hperm.nodup_iff.mpr hnd
  have hs' : s ∈ score_and_order_selectors stats selectors :=
    hperm.mem_iff.mpr hs
  constructor
  · rw [safe_fill, safeFillGo_all_fail envF retries _ hF]
    exact count_flatMap_replicate retries _ s hnd' hs'
  · rw [safe_click, safeClickGo_all_fail envC retries _ hC]
    exact count_flatMap_replicate retries _ s hnd' hs'

/-- Closed witness for the amended C3: two candidates, one retry each, all
attempts failing — Failure is returned and each candidate gets exactly one
failure record. -/
theorem fill_click_exhaustion_witness :
    safe_fill [] (fun _ _ => FillAttempt.bothFail) ["a", "b"] 1 =
      ((false, none), [("a", false), ("b", false)]) ∧
    (safe_click [] (fun _ _ => ClickAttempt.error) ["a", "b"] 1).2.count ("a", false) = 1 := by
  have h := fill_click_exhaustion [] (fun _ _ => FillAttempt.bothFail)
    (fun _ _ => ClickAttempt.error) ["a", "b"] 1 (fun _ _ => rfl) (fun _ _ => rfl)
  refine ⟨?_, ?_⟩
  · rw [h.1]
    rfl
  · exact (h.2.2 (by decide) "a" (by decide)).2

/-! ## SubmitResolver (`GenericUIAgent._attempt_submit`)

Candidate selectors are the provider config's `submit_selectors` followed by
a fixed built-in fallback list; they are deduplicated preserving first-seen
order, then tried as native click / forced JS click against the page and
every sub-frame, then a keyboard shortcut, then native `form.submit()`.

The environment gives the outcome of each page primitive.  `query` models
`frame.query_selector` (`notFound` ⇒ `continue` to the next candidate;
`raised` is swallowed by its bare `except: pass` and the code proceeds as
if an element were present).  The disabled-attribute probe and override
(`el.disabled` / `aria-disabled` clearing) only mutate the external page
and are individually guarded, so they do not appear in the state.
`keyboardOk = false` means both the Ctrl+Enter and the plain-Enter press
raised; `formSubmit` is the truthiness of the `page.evaluate` result, with
an exception counted as falsy (both fall through to the final
`return False, None`). -/

/-- A single-quote character, to spell the CSS selector string literals. -/
def sq : String := ⟨[Char.ofNat 39]⟩

/-- The built-in fallback submit candidates appended to
`cfg.get("submit_selectors", [])`. -/
def builtin_submit_selectors : List String :=
  [ "button:has-text(" ++ sq ++ "Submit as New" ++ sq ++ ")",
    "button:has-text(" ++ sq ++ "Submit" ++ sq ++ ")",
    "button:has-text(" ++ sq ++ "Save" ++ sq ++ ")",
    "button[type=" ++ sq ++ "submit" ++ sq ++ "]",
    "input[type=" ++ sq ++ "submit" ++ sq ++ "]",
    "button:has-text(" ++ sq ++ "Create" ++ sq ++ ")",
    "button[aria-label=" ++ sq ++ "Submit" ++ sq ++ "]" ]

/-- The `seen`-set deduplication loop (`seen = set(); for c in candidates:
if c not in seen: seen.add(c); dedup.append(c)`): keep the first occurrence
of each candidate, preserving first-seen order. -/
def dedupFirstSeenAux (seen : List String) : List String → List String
  | [] => []
  | c :: cs =>
    if c ∈ seen then dedupFirstSeenAux seen cs
    else c :: dedupFirstSeenAux (c :: seen) cs

def dedupFirstSeen (l : List String) : List String :=
  dedupFirstSeenAux [] l

inductive QueryRes where
  | found
  | notFound
  | raised
deriving DecidableEq, Repr

structure SubmitEnv where
  /-- `page.frames` (each sub-document gets an opaque index; the page itself
  is index `0`). -/
  subFrames : List Nat
  /-- whether `[page] + list(page.frames)` evaluated without raising
  (otherwise the code falls back to `[page]`). -/
  framesOk : Bool
  query : Nat → String → QueryRes
  click : Nat → String → Bool
  jsClick : Nat → String → Bool
  keyboardOk : Bool
  formSubmit : Bool

inductive SubmitEv where
  | clickTry (frame : Nat) (sel : String) (ok : Bool)
  | jsClickTry (frame : Nat) (sel : String) (ok : Bool)
  | keyboard
  | formTry (ok : Bool)
deriving DecidableEq, Repr

/-- Fallback layer of an attempt event: selector clicks (0), keyboard (1),
native form submission (2). -/
def SubmitEv.layer : SubmitEv → Nat
  | clickTry _ _ _ => 0
  | jsClickTry _ _ _ => 0
  | keyboard => 1
  | formTry _ => 2

/-- The `for s in dedup` loop for one frame: skip candidates with no
matching element, otherwise native click then forced JS click, returning
on the first success. -/
def submitCandLoop (env : SubmitEnv) (f : Nat) :
    List String → Option String × List SubmitEv
  | [] => (none, [])
  | s :: rest =>
    match env.query f s with
    | QueryRes.notFound => submitCandLoop env f rest
    | _ =>
      if env.click f s then
        (some s, [SubmitEv.clickTry f s true])
      else if env.jsClick f s then
        (some s, [SubmitEv.clickTry f s false, SubmitEv.jsClickTry f s true])
      else
        let r := submitCandLoop env f rest
        (r.1, SubmitEv.clickTry f s false :: SubmitEv.jsClickTry f s false :: r.2)

/-- The `for frame in frames` loop. -/
def submitFrameLoop (env : SubmitEnv) (dedup : List String) :
    List Nat → Option String × List SubmitEv
  | [] => (none, [])
  | f :: fs =>
    let r := submitCandLoop env f dedup
    match r.1 with
    | some s => (some s, r.2)
    | none =>
      let rr := submitFrameLoop env dedup fs
      (rr.1, r.2 ++ rr.2)

/-- `frames = [page] + list(page.frames)` (falling back to `[page]` when
enumerating frames raised). -/
def submitFrames (env : SubmitEnv) : List Nat :=
  0 :: (if env.framesOk then env.subFrames else [])

/-- `GenericUIAgent._attempt_submit`. -/
def attempt_submit (env : SubmitEnv) (cfg_submit_selectors : List String) :
    (Bool × Option String) × List SubmitEv :=
  let candidates := cfg_submit_selectors ++ builtin_submit_selectors
  let dedup := dedupFirstSeen candidates
  let r := submitFrameLoop env dedup (submitFrames env)
  match r.1 with
  | some s => ((true, some s), r.2)
  | none =>
    if env.keyboardOk then
      ((true, some "keyboard"), r.2 ++ [SubmitEv.keyboard])
    else if env.formSubmit then
      ((true, some ("form.submit" ++ "()")),
       r.2 ++ [SubmitEv.keyboard, SubmitEv.formTry true])
    else
      ((false, none), r.2 ++ [SubmitEv.keyboard, SubmitEv.formTry false])

/-! ### Deduplication lemmas -/

theorem dedupFirstSeenAux_sublist (seen l : List String) :
    (dedupFirstSeenAux seen l).Sublist l := by
  induction l generalizing seen with
  | nil => simp [dedupFirstSeenAux]
  | cons c cs ih =>
    rw [dedupFirstSeenAux]
    by_cases hc : c ∈ seen
    · rw [if_pos hc]
      exact (ih seen).cons c
    · rw [if_neg hc]
      exact (ih (c :: seen)).cons₂ c

theorem dedupFirstSeen_sublist (l : List String) : (dedupFirstSeen l).Sublist l :=
  dedupFirstSeenAux_sublist [] l

theorem dedupFirstSeenAux_mem (seen l : List String) (x : String) :
    x ∈ dedupFirstSeenAux seen l ↔ x ∈ l ∧ x ∉ seen := by
  induction l generalizing seen with
  | nil => simp [dedupFirstSeenAux]
  | cons c cs ih =>
    rw [dedupFirstSeenAux]
    by_cases hc : c ∈ seen
    · rw [if_pos hc, ih seen]
      constructor
      · exact fun ⟨h1, h2⟩ => ⟨List.mem_cons_of_mem _ h1, h2⟩
      · rintro ⟨h1, h2⟩
        rcases List.mem_cons.mp h1 with hxc | h1'
        · exact absurd (hxc ▸ hc) h2
        · exact ⟨h1', h2⟩
    · rw [if_neg hc]
      constructor
      · intro hx
        rcases List.mem_cons.mp hx with hxc | hx'
        · exact ⟨hxc ▸ List.mem_cons_self _ _, hxc ▸ hc⟩
        · rcases (ih (c :: seen)).mp hx' with ⟨h1, h2⟩
          exact ⟨List.mem_cons_of_mem _ h1,
            fun hsm => h2 (List.mem_cons_of_mem _ hsm)⟩
      · rintro ⟨h1, h2⟩
        rcases List.mem_cons.mp h1 with hxc | h1'
        · exact hxc ▸ List.mem_cons_self _ _
        · by_cases hxc : x = c
          · exact hxc ▸ List.mem_cons_self _ _
          · refine List.mem_cons_of_mem _ ((ih (c :: seen)).mpr ⟨h1', ?_⟩)
            intro hsm
            rcases List.mem_cons.mp hsm with h | h
            · exact hxc h
            · exact h2 h

theorem dedupFirstSeen_mem (l : List String) (x : String) :
    x ∈ dedupFirstSeen l ↔ x ∈ l := by
  rw [dedupFirstSeen, dedupFirstSeenAux_mem]
  simp

theorem dedupFirstSeenAux_nodup (seen l : List String) :
    (dedupFirstSeenAux seen l).Nodup := by
  induction l generalizing seen with
  | nil => simp [dedupFirstSeenAux]
  | cons c cs ih =>
    rw [dedupFirstSeenAux]
    by_cases hc : c ∈ seen
    · rw [if_pos hc]
      exact ih seen
    · rw [if_neg hc]
      refine List.nodup_cons.mpr ⟨?_, ih (c :: seen)⟩
      intro hmem
      exact ((dedupFirstSeenAux_mem _ _ c).mp hmem).2 (List.mem_cons_self _ _)

theorem dedupFirstSeen_nodup (l : List String) : (dedupFirstSeen l).Nodup :=
  dedupFirstSeenAux_nodup [] l

/-! ### Trace-shape lemmas -/

theorem submitCandLoop_layer (env : SubmitEnv) (f : Nat) (l : List String) :
    ∀ e ∈ (submitCandLoop env f l).2, e.layer = 0 := by
  induction l with
  | nil => simp [submitCandLoop]
  | cons s rest ih =>
    intro e he
    rw [submitCandLoop] at he
    rcases hq : env.query f s with _ | _ | _ <;> rw [hq] at he
    · by_cases hc : env.click f s
      · simp [hc] at he
        simp [he, SubmitEv.layer]
      · by_cases hj : env.jsClick f s
        · simp [hc, hj] at he
          rcases he with he | he <;> simp [he, SubmitEv.layer]
        · simp [hc, hj] at he
          rcases he with he | he | he
          · simp [he, SubmitEv.layer]
          · simp [he, SubmitEv.layer]
          · exact ih e he
    · exact ih e he
    · by_cases hc : env.click f s
      · simp [hc] at he
        simp [he, SubmitEv.layer]
      · by_cases hj : env.jsClick f s
        · simp [hc, hj] at he
          rcases he with he | he <;> simp [he, SubmitEv.layer]
        · simp [hc, hj] at he
          rcases he with he | he | he
          · simp [he, SubmitEv.layer]
          · simp [he, SubmitEv.layer]
          · exact ih e he

theorem submitFrameLoop_layer (env : SubmitEnv) (dedup : List String) (fs : List Nat) :
    ∀ e ∈ (submitFrameLoop env dedup fs).2, e.layer = 0 := by
  induction fs with
  | nil => simp [submitFrameLoop]
  | cons f fs ih =>
    intro e he
    rw [submitFrameLoop] at he
    rcases hr : (submitCandLoop env f dedup).1 with _ | s <;> rw [hr] at he
    · simp at he
      rcases he with he | he
      · exact submitCandLoop_layer env f dedup e he
      · exact ih e he
    · simp at he
      exact submitCandLoop_layer env f dedup e he

theorem submitCandLoop_none (env : SubmitEnv) (f : Nat) (l : List String)
    (h : (submitCandLoop env f l).1 = none) :
    ∀ s ∈ l, env.query f s = QueryRes.notFound ∨
      (env.click f s = false ∧ env.jsClick f s = false ∧
       SubmitEv.clickTry f s false ∈ (submitCandLoop env f l).2 ∧
       SubmitEv.jsClickTry f s false ∈ (submitCandLoop env f l).2) := by
  induction l with
  | nil => simp
  | cons c rest ih =>
    intro s hs
    rcases hq : env.query f c with _ | _ | _
    · -- found: the code proceeds to click
      rw [submitCandLoop, hq] at h ⊢
      by_cases hc : env.click f c
      · simp [hc] at h
      · by_cases hj : env.jsClick f c
        · simp [hc, hj] at h
        · simp only [if_neg hc, if_neg hj] at h ⊢
          rcases List.mem_cons.mp hs with hsc | hs'
          · subst hsc
            right
            refine ⟨by simpa using hc, by simpa using hj, by simp, by simp⟩
          · rcases ih h s hs' with hcase | ⟨h1, h2, h3, h4⟩
            · exact Or.inl hcase
            · exact Or.inr ⟨h1, h2, by simp [h3], by simp [h4]⟩
    · -- notFound: skipped
      rw [submitCandLoop, hq] at h ⊢
      rcases List.mem_cons.mp hs with hsc | hs'
      · subst hsc
        exact Or.inl hq
      · exact ih h s hs'
    · -- raised: the bare except falls through to the click attempts
      rw [submitCandLoop, hq] at h ⊢
      by_cases hc : env.click f c
      · simp [hc] at h
      · by_cases hj : env.jsClick f c
        · simp [hc, hj] at h
        · simp only [if_neg hc, if_neg hj] at h ⊢
          rcases List.mem_cons.mp hs with hsc | hs'
          · subst hsc
            right
            refine ⟨by simpa using hc, by simpa using hj, by simp, by simp⟩
          · rcases ih h s hs' with hcase | ⟨h1, h2, h3, h4⟩
            · exact Or.inl hcase
            · exact Or.inr ⟨h1, h2, by simp [h3], by simp [h4]⟩

theorem submitFrameLoop_none (env : SubmitEnv) (dedup : List String) (fs : List Nat)
    (h : (submitFrameLoop env dedup fs).1 = none) :
    ∀ f ∈ fs, ∀ s ∈ dedup, env.query f s = QueryRes.notFound ∨
      (env.click f s = false ∧ env.jsClick f s = false ∧
       SubmitEv.clickTry f s false ∈ (submitFrameLoop env dedup fs).2 ∧
       SubmitEv.jsClickTry f s false ∈ (submitFrameLoop env dedup fs).2) := by
  induction fs with
  | nil => simp
  | cons f0 fs ih =>
    intro f hf s hs
    rcases hr : (submitCandLoop env f0 dedup).1 with _ | u
    · rw [submitFrameLoop, hr] at h ⊢
      simp only at h ⊢
      rcases List.mem_cons.mp hf with hf0 | hf'
      · subst hf0
        rcases submitCandLoop_none env f dedup hr s hs with hcase | ⟨h1, h2, h3, h4⟩
        · exact Or.inl hcase
        · exact Or.inr ⟨h1, h2, List.mem_append.mpr (Or.inl h3),
            List.mem_append.mpr (Or.inl h4)⟩
      · rcases ih h f hf' s hs with hcase | ⟨h1, h2, h3, h4⟩
        · exact Or.inl hcase
        · exact Or.inr ⟨h1, h2, List.mem_append.mpr (Or.inr h3),
            List.mem_append.mpr (Or.inr h4)⟩
    · rw [submitFrameLoop, hr] at h
      simp at h

/-! ### Claim theorem about the submit resolver -/

/-- C7: `_attempt_submit` deduplicates its submit candidates preserving
first-seen order (the dedup list is a sublist of the candidate list, has no
duplicates, and keeps exactly the candidates of the input); its attempt
trace is monotone in fallback layer, so every (sub-document, candidate)
selector click it attempts happens before any keyboard submit attempt and
the keyboard attempt happens before native form submission; and it reports
failure only after all three layers are exhausted: every deduplicated
candidate on every frame was either absent or saw both its native click and
its forced JS click fail, the keyboard shortcut raised, and native form
submission was attempted and yielded nothing. -/
theorem submit_layer_order (env : SubmitEnv) (cfg_sels : List String) :
    ((dedupFirstSeen (cfg_sels ++ builtin_submit_selectors)).Sublist
        (cfg_sels ++ builtin_submit_selectors) ∧
      (dedupFirstSeen (cfg_sels ++ builtin_submit_selectors)).Nodup ∧
      (∀ x, x ∈ dedupFirstSeen (cfg_sels ++ builtin_submit_selectors) ↔
        x ∈ cfg_sels ++ builtin_submit_selectors)) ∧
    (attempt_submit env cfg_sels).2.Pairwise (fun a b => a.layer ≤ b.layer) ∧
    ((attempt_submit env cfg_sels).1.1 = false →
      env.keyboardOk = false ∧ env.formSubmit = false ∧
      SubmitEv.keyboard ∈ (attempt_submit env cfg_sels).2 ∧
      SubmitEv.formTry false ∈ (attempt_submit env cfg_sels).2 ∧
      ∀ f ∈ submitFrames env, ∀ s ∈ dedupFirstSeen (cfg_sels ++ builtin_submit_selectors),
        env.query f s = QueryRes.notFound ∨
          (env.click f s = false ∧ env.jsClick f s = false ∧
           SubmitEv.clickTry f s false ∈ (attempt_submit env cfg_sels).2 ∧
           SubmitEv.jsClickTry f s false ∈ (attempt_submit env cfg_sels).2)) := by
  refine ⟨⟨dedupFirstSeen_sublist _, dedupFirstSeen_nodup _,
    fun x => dedupFirstSeen_mem _ x⟩, ?_, ?_⟩
  · -- layer monotonicity of the trace
    rcases hr : (submitFrameLoop env (dedupFirstSeen (cfg_sels ++ builtin_submit_selectors))
        (submitFrames env)).1 with _ | u
    · rw [attempt_submit]
      simp only [hr]
      by_cases hk : env.keyboardOk
      · simp only [if_pos hk]
        rw [List.pairwise_append]
        refine ⟨?_, by simp, ?_⟩
        · exact List.pairwise_of_forall_mem_list fun a ha b hb => by
            rw [submitFrameLoop_layer env _ _ a ha, submitFrameLoop_layer env _ _ b hb]
        · intro a ha b hb
          rw [submitFrameLoop_layer env _ _ a ha]
          exact Nat.zero_le _
      · by_cases hf : env.formSubmit
        · simp only [if_neg hk, if_pos hf]
          rw [List.pairwise_append]
          refine ⟨?_, by simp [SubmitEv.layer], ?_⟩
          · exact List.pairwise_of_forall_mem_list fun a ha b hb => by
              rw [submitFrameLoop_layer env _ _ a ha, submitFrameLoop_layer env _ _ b hb]
          · intro a ha b hb
            rw [submitFrameLoop_layer env _ _ a ha]
            exact Nat.zero_le _
        · simp only [if_neg hk, if_neg hf]
          rw [List.pairwise_append]
          refine ⟨?_, by simp [SubmitEv.layer], ?_⟩
          · exact List.pairwise_of_forall_mem_list fun a ha b hb => by
              rw [submitFrameLoop_layer env _ _ a ha, submitFrameLoop_layer env _ _ b hb]
          · intro a ha b hb
            rw [submitFrameLoop_layer env _ _ a ha]
            exact Nat.zero_le _
    · rw [attempt_submit]
      simp only [hr]
      exact List.pairwise_of_forall_mem_list fun a ha b hb => by
        rw [submitFrameLoop_layer env _ _ a ha, submitFrameLoop_layer env _ _ b hb]
  · -- failure characterisation
    intro hfail
    rcases hr : (submitFrameLoop env (dedupFirstSeen (cfg_sels ++ builtin_submit_selectors))
        (submitFrames env)).1 with _ | u
    · by_cases hk : env.keyboardOk
      · rw [attempt_submit] at hfail
        simp [hr, hk] at hfail
      · by_cases hf : env.formSubmit
        · rw [attempt_submit] at hfail
          simp [hr, hk, hf] at hfail
        · have htr : (attempt_submit env cfg_sels).2 =
              (submitFrameLoop env (dedupFirstSeen (cfg_sels ++ builtin_submit_selectors))
                (submitFrames env)).2 ++ [SubmitEv.keyboard, SubmitEv.formTry false] := by
            rw [attempt_submit]
            simp [hr, hk, hf]
          refine ⟨by simpa using hk, by simpa using hf, ?_, ?_, ?_⟩
          · rw [htr]
            simp
          · rw [htr]
            simp
          · intro f hfmem s hsmem
            rcases submitFrameLoop_none env _ _ hr f hfmem s hsmem with hcase | ⟨h1, h2, h3, h4⟩
            · exact Or.inl hcase
            · refine Or.inr ⟨h1, h2, ?_, ?_⟩
              · rw [htr]
                exact List.mem_append.mpr (Or.inl h3)
              · rw [htr]
                exact List.mem_append.mpr (Or.inl h4)
    · rw [attempt_submit] at hfail
      simp [hr] at hfail

/-- An environment in which every submit strategy fails. -/
def submitEnvAllFail : SubmitEnv where
  subFrames := [1]
  framesOk := true
  query := fun _ _ => QueryRes.found
  click := fun _ _ => false
  jsClick := fun _ _ => false
  keyboardOk := false
  formSubmit := false

/-- Closed witness for C7: in the all-fail environment the resolver reports
failure, and the trace indeed contains the keyboard attempt and the failed
native form submission after the selector layer. -/
theorem submit_layer_order_witness :
    (attempt_submit submitEnvAllFail ["custom1"]).1.1 = false ∧
    SubmitEv.keyboard ∈ (attempt_submit submitEnvAllFail ["custom1"]).2 ∧
    SubmitEv.formTry false ∈ (attempt_submit submitEnvAllFail ["custom1"]).2 := by
  have h := submit_layer_order submitEnvAllFail ["custom1"]
  have hres : (attempt_submit submitEnvAllFail ["custom1"]).1.1 = false := by rfl
  obtain ⟨-, -, hc⟩ := h
  obtain ⟨-, -, hk, hf, -⟩ := hc hres
  exact ⟨hres, hk, hf⟩

/-! ## Data model: steps and intents

A step is a JSON dict with the keys read by `execute_steps`; step lists
inferred by the LLM may contain non-dict entries, for which `dict(st)`
raises — represented by `Step.malformed`.  The intent dict fields touched
by the engine are its `steps`, its `fields` map (name → `{value, ...}`),
and the string fields reachable through `intent.get(st["target"])`
(`subject` / `description`; the remaining intent keys hold non-string
values that no shipped step targets). -/

structure StepVal where
  action : Option String
  selector_candidates : Option (List String)
  selector : Option String
  value : Option String
  value_source : Option String
  valueFrom : Option String
  source : Option String
  target : Option String
deriving DecidableEq, Repr

inductive Step where
  | mk (fields : StepVal)
  | malformed
deriving DecidableEq, Repr

structure Field where
  value : Option String
deriving DecidableEq, Repr

structure Intent where
  steps : Option (List Step)
  fields : Option (List (String × Field))
  subject : Option String
  description : Option String
deriving DecidableEq, Repr

/-- Python string truthiness of an optional value: absent and `""` are
falsy. -/
def truthyStr : Option String → Bool
  | none => false
  | some s => !s.isEmpty

/-- Python `a or b` on optional strings. -/
def pyOrStr (a b : Option String) : Option String :=
  match a with
  | some s => if s.isEmpty then b else some s
  | none => b

/-- Python truthiness of `intent.get("fields")`. -/
def fieldsTruthy : Option (List (String × Field)) → Bool
  | some (_ :: _) => true
  | _ => false

/-- `(intent.get("fields", {}) or {}).get(name, {}).get("value")`. -/
def fieldsLookupValue (fields : Option (List (String × Field))) (name : String) :
    Option String :=
  match fields with
  | some fl =>
    match fl.lookup name with
    | some fld => fld.value
    | none => none
  | none => none

/-- `intent.get(key)` restricted to the string-valued intent keys. -/
def intentLookup (intent : Intent) (key : String) : Option String :=
  if key = "subject" then intent.subject
  else if key = "description" then intent.description
  else none

/-- The value-resolution ladder of the `fill` branch of `execute_steps`:
a literal `value` wins; else follow `value_source` / `valueFrom` / `source`
(a `fields.<name>.value` dotted reference); else fall back to `target` as a
direct lookup into the intent and its `fields` map. -/
def resolveFillValue (intent : Intent) (stv : StepVal) : Option String :=
  if truthyStr stv.value then stv.value
  else
    let vs := pyOrStr stv.value_source (pyOrStr stv.valueFrom stv.source)
    match vs with
    | some v =>
      if v.startsWith "fields." then
        match (v.splitOn ".").get? 1 with
        | some fld =>
          if fieldsTruthy intent.fields then fieldsLookupValue intent.fields fld
          else none
        | none => none
      else if truthyStr stv.target then
        pyOrStr (intentLookup intent (stv.target.getD ""))
          (fieldsLookupValue intent.fields (stv.target.getD ""))
      else none
    | none =>
      if truthyStr stv.target then
        pyOrStr (intentLookup intent (stv.target.getD ""))
          (fieldsLookupValue intent.fields (stv.target.getD ""))
      else none

/-- `st.get("selector_candidates") or ([st.get("selector")] if
st.get("selector") else [])`, plus the string-to-singleton coercion. -/
def stepSelectors (stv : StepVal) : List String :=
  match stv.selector_candidates with
  | some (s :: rest) => s :: rest
  | _ =>
    match stv.selector with
    | some sel => if sel.isEmpty then [] else [sel]
    | none => []

/-! ## StepSequenceRunner (`GenericUIAgent.execute_steps`)

Each step is logged, dispatched on its `action` to `safe_click` /
`safe_fill` (whose scorer records are folded back into the shared stats
table), with the label-based last-resort fill fallback
(`find_field_by_label`, an internally fully guarded page scan modelled by
the `labelEnv` oracle).  A failing step does not abort the loop; only an
exception does (`dict(st)` on a malformed entry), in which case the
`except` clause returns `False`. -/

inductive StepLogEv where
  | stepStart (idx : Nat)
  | filledWith (idx : Nat) (value : String)
  | labelFallback (idx : Nat) (selector : String)
  | stepEnd (idx : Nat) (ok : Bool)
  | unknownAction (idx : Nat)
deriving DecidableEq, Repr

/-- Fold a list of scorer records (as returned by `safe_fill`/`safe_click`)
into the stats table, in order. -/
def applyRecordList (stats : List (String × SelStat)) (recs : List (String × Bool)) :
    List (String × SelStat) :=
  recs.foldl (fun st p => update_selector_stats st p.1 p.2) stats

def executeStepsGo (fillEnv : Nat → String → Nat → FillAttempt)
    (clickEnv : Nat → String → Nat → ClickAttempt)
    (labelEnv : Nat → Option String) (intent : Intent) (retries : Nat) :
    Nat → List (String × SelStat) → List Step →
      Bool × List StepLogEv × List (String × SelStat)
  | _, stats, [] => (true, [], stats)
  | _, stats, Step.malformed :: _ => (false, [], stats)
  | idx, stats, Step.mk stv :: rest =>
    let step :
        List StepLogEv × List (String × SelStat) :=
      match stv.action with
      | some a =>
        if a = "click" then
          let r := safe_click stats (clickEnv idx) (stepSelectors stv) retries
          ([StepLogEv.stepStart idx, StepLogEv.stepEnd idx r.1.1],
           applyRecordList stats r.2)
        else if a = "fill" then
          let val := (resolveFillValue intent stv).getD ""
          let r := safe_fill stats (fillEnv idx) (stepSelectors stv) retries
          let stats1 := applyRecordList stats r.2
          if r.1.1 then
            ([StepLogEv.stepStart idx, StepLogEv.filledWith idx val,
              StepLogEv.stepEnd idx true], stats1)
          else if truthyStr stv.target then
            match labelEnv idx with
            | some cand =>
              let r2 := safe_fill stats1 (fillEnv idx) [cand] retries
              ([StepLogEv.stepStart idx, StepLogEv.filledWith idx val,
                StepLogEv.labelFallback idx cand, StepLogEv.stepEnd idx r2.1.1],
               applyRecordList stats1 r2.2)
            | none =>
              ([StepLogEv.stepStart idx, StepLogEv.filledWith idx val,
                StepLogEv.stepEnd idx false], stats1)
          else
            ([StepLogEv.stepStart idx, StepLogEv.filledWith idx val,
              StepLogEv.stepEnd idx false], stats1)
        else
          ([StepLogEv.stepStart idx, StepLogEv.unknownAction idx], stats)
      | none => ([StepLogEv.stepStart idx, StepLogEv.unknownAction idx], stats)
    let rec_ := executeStepsGo fillEnv clickEnv labelEnv intent retries
      (idx + 1) step.2 rest
    (rec_.1, step.1 ++ rec_.2.1, rec_.2.2)

/-- `GenericUIAgent.execute_steps` (`per_step_retries` defaults to 2 at the
Python signature; `create_ticket` calls it with that default). -/
def execute_steps (stats : List (String × SelStat))
    (fillEnv : Nat → String → Nat → FillAttempt)
    (clickEnv : Nat → String → Nat → ClickAttempt)
    (labelEnv : Nat → Option String) (intent : Intent) (steps : List Step)
    (per_step_retries : Nat) : Bool × List StepLogEv × List (String × SelStat) :=
  executeStepsGo fillEnv clickEnv labelEnv intent per_step_retries 0 stats steps

theorem executeStepsGo_result (fillEnv : Nat → String → Nat → FillAttempt)
    (clickEnv : Nat → String → Nat → ClickAttempt)
    (labelEnv : Nat → Option String) (intent : Intent) (retries : Nat)
    (steps : List Step) :
    ∀ (idx : Nat) (stats : List (String × SelStat)),
      ((executeStepsGo fillEnv clickEnv labelEnv intent retries idx stats steps).1 = true ↔
        Step.malformed ∉ steps) := by
  induction steps with
  | nil => intro idx stats; simp [executeStepsGo]
  | cons st rest ih =>
    intro idx stats
    rcases st with stv | _
    · rw [executeStepsGo]
      simp only [List.mem_cons]
      rw [ih]
      constructor
      · intro h hmem
        rcases hmem with hmem | hmem
        · exact absurd hmem.symm (by simp)
        · exact h hmem
      · intro h hmem
        exact h (Or.inr hmem)
    · rw [executeStepsGo]
      simp

/-- C10: the boolean result of `execute_steps` is `True` exactly when no
exception interrupts the loop over the steps (i.e. when no step entry is
malformed), for every outcome environment — in particular it is `True`
when every individual click and fill step fails — and `False` only when an
exception is raised while iterating; the result is therefore independent
of the per-step outcomes. -/
theorem execute_steps_result (stats stats' : List (String × SelStat))
    (fillEnv fillEnv' : Nat → String → Nat → FillAttempt)
    (clickEnv clickEnv' : Nat → String → Nat → ClickAttempt)
    (labelEnv labelEnv' : Nat → Option String) (intent intent' : Intent)
    (steps : List Step) (retries retries' : Nat) :
    ((execute_steps stats fillEnv clickEnv labelEnv intent steps retries).1 = true ↔
      Step.malformed ∉ steps) ∧
    (execute_steps stats fillEnv clickEnv labelEnv intent steps retries).1 =
      (execute_steps stats' fillEnv' clickEnv' labelEnv' intent' steps retries').1 := by
  have h1 := executeStepsGo_result fillEnv clickEnv labelEnv intent retries steps 0 stats
  have h2 := executeStepsGo_result fillEnv' clickEnv' labelEnv' intent' retries' steps 0 stats'
  refine ⟨h1, ?_⟩
  by_cases hm : Step.malformed ∉ steps
  · rw [execute_steps, execute_steps] at *
    rw [h1.mpr hm, h2.mpr hm]
  · rcases hb1 : (execute_steps stats fillEnv clickEnv labelEnv intent steps retries).1 with _ | _
    · rcases hb2 : (execute_steps stats' fillEnv' clickEnv' labelEnv' intent' steps retries').1 with _ | _
      · rfl
      · exact absurd (h2.mp hb2) hm
    · exact absurd (h1.mp hb1) hm

/-! ## RunOrchestrator (`GenericUIAgent.create_ticket` and the
`agents/ui_agent.py` shim `create_ticket`)

Python exceptions are the `Except.error` side of the results; a `PyExc`
is the exception's message.  Adapters (`adapters.get_adapter` registry
instances) expose `create_ticket(intent)`, which may itself raise — every
call site wraps it in `try/except`.  The fields of `RunEnv` fix, for one
invocation, the outcome of each collaborator primitive:

* `launch` — `sync_playwright()` entry plus `_launch` (an exception here
  reaches the method's outermost handler); `true` means a persistent
  context (`user_data_dir` set);
* `gotoRaises` — `page.goto(base_url)`, caught and logged, non-fatal;
* `ssoDetected` — `_detect_sso_on_page` (internally fully guarded);
* `ssoMarker` — whether one of the first three `open_new_selectors`
  matches after the manual SSO wait window;
* `attempt_login` — `_attempt_login` (internally fully guarded);
* `getAdapter` — the `adapters.get_adapter` registry;
* `llmInfer` — the parsed LLM response of `infer_steps_with_llm`
  (consulted only when the deterministic-mock flag is off; the raw call is
  guarded and yields `none` on any failure);
* `fillEnv`/`clickEnv`/`labelEnv`/`submitEnv` — the page primitives of the
  step runner and submit resolver. -/

abbrev PyExc := String

/-- Python `str.lower()` (character-wise; provider names are ASCII). -/
def pyLower (s : String) : String := ⟨s.data.map Char.toLower⟩

/-- Python `str.strip()`. -/
def pyStrip (s : String) : String :=
  ⟨((s.data.dropWhile Char.isWhitespace).reverse.dropWhile Char.isWhitespace).reverse⟩

structure AdapterRes where
  status : String
  error : Option String
  raw : Option String
deriving DecidableEq, Repr

structure Adapter where
  createTicket : Intent → Except PyExc AdapterRes

/-- `if not _DEBUG_RETURN_RAW and isinstance(adapter_res, dict) and "raw" in
adapter_res: adapter_res.pop("raw", None)`. -/
def stripRaw (debug_return_raw : Bool) (r : AdapterRes) : AdapterRes :=
  if !debug_return_raw && !(r.raw == none) then { r with raw := none } else r

/-- The provider-config keys `create_ticket` reads.  `login` is the
truthiness of the `login` block (the embedding does not need its inner
selector lists: `_attempt_login` is a single guarded collaborator).
A provider with no config file gets `{}`, i.e. `emptyCfg`. -/
structure ProviderCfg where
  base_url : String
  login : Bool
  open_new_selectors : List String
  submit_selectors : List String
  adapter : Option String
deriving DecidableEq, Repr

def emptyCfg : ProviderCfg :=
  { base_url := "", login := false, open_new_selectors := [],
    submit_selectors := [], adapter := none }

/-- Result dictionaries returned by `create_ticket`: the `_result(status,
detail)` shape `{"status": ..., "run_id": ..., **detail}`, the
adapter-fallback wrapper `{provider: adapter_result}`, and the two
`run_id`-less error dicts of the shim and of the outermost handler. -/
inductive RunResult where
  | res (status : String) (run_id : String) (steps : Option (List Step))
      (error : Option String) (executed_steps : Option Nat)
  | wrapped (provider : String) (r : AdapterRes)
  | plainError (error : String)
deriving DecidableEq, Repr

structure InferRes where
  steps : Option (List Step)
  fields : Option (List (String × Field))
deriving DecidableEq, Repr

structure RunEnv where
  launch : Except PyExc Bool
  gotoRaises : Bool
  ssoDetected : Bool
  ssoMarker : Bool
  attempt_login : Bool
  getAdapter : String → Option Adapter
  llmInfer : Option InferRes
  fillEnv : Nat → String → Nat → FillAttempt
  clickEnv : Nat → String → Nat → ClickAttempt
  labelEnv : Nat → Option String
  submitEnv : SubmitEnv

inductive BrowserEv where
  | launched
  | navigated (url : String)
  | loginFlow
  | stepsExecuted
  | submitAttempted
  | diagnosticsSaved
  | closed
deriving DecidableEq, Repr

/-- `GenericUIAgent._resolve_adapter`: the config's explicit `adapter`
reference (then its last dotted component), else the provider name. -/
def resolve_adapter (getAdapter : String → Option Adapter) (cfg : ProviderCfg)
    (provider : String) : Option Adapter :=
  match cfg.adapter with
  | some aname =>
    if aname.isEmpty then getAdapter provider
    else
      match getAdapter aname with
      | some ad => some ad
      | none =>
        match (aname.splitOn ".").getLast? with
        | some last =>
          match getAdapter last with
          | some ad => some ad
          | none => getAdapter provider
        | none => getAdapter provider
  | none => getAdapter provider

/-- `GenericUIAgent.infer_steps_with_llm`: returns `None` immediately when
`USE_MOCK_DOM` is set; otherwise the guarded LLM call produces a dict that
keeps only truthy `steps`/`fields`, or `None`. -/
def infer_steps_with_llm (use_mock_dom : Bool) (llm : Option InferRes) :
    Option InferRes :=
  if use_mock_dom then none
  else
    match llm with
    | some r =>
      let steps := match r.steps with
        | some (s :: rest) => some (s :: rest)
        | _ => none
      let fields := if fieldsTruthy r.fields then r.fields else none
      if steps.isSome || fields.isSome then some ⟨steps, fields⟩ else none
    | none => none

def pyFalsySteps : Option (List Step) → Bool
  | some (_ :: _) => false
  | _ => true

/-- `dict.update`: existing keys are overwritten in place, new keys are
appended in order. -/
def dictUpdate (base upd : List (String × Field)) : List (String × Field) :=
  (base.map fun p =>
    match upd.lookup p.1 with
    | some v => (p.1, v)
    | none => p) ++
  upd.filter fun q => (base.lookup q.1).isNone

/-- The `adapter = self._resolve_adapter(...); if adapter: try: ... return
{provider: adapter_res}` pattern shared by the SSO, failed-login and
no-steps fallbacks: `none` when no adapter resolves (each caller then
produces its case-specific error result). -/
def adapterFallback (getAdapter : String → Option Adapter) (debug_return_raw : Bool)
    (cfg : ProviderCfg) (provider : String) (intent : Intent) : Option RunResult :=
  match resolve_adapter getAdapter cfg provider with
  | some ad =>
    match ad.createTicket intent with
    | Except.ok r => some (RunResult.wrapped provider (stripRaw debug_return_raw r))
    | Except.error _ =>
      some (RunResult.wrapped provider ⟨"error", some "adapter fallback failed", none⟩)
  | none => none

/-- The login block (`if cfg and cfg.get("login"): ...`, lines guarded by
its own `except Exception: pass`): `some r` means `create_ticket` returns
`r` from inside the block, `none` means fall through to step acquisition. -/
def loginSection (env : RunEnv) (debug_return_raw : Bool) (cfg : ProviderCfg)
    (provider : String) (intent : Intent) (run_id : String) (isPersistent : Bool) :
    Option RunResult :=
  if cfg.login then
    if env.ssoDetected && !isPersistent then
      let logged_in :=
        match cfg.open_new_selectors.take 3 with
        | [] => false
        | _ => env.ssoMarker
      if logged_in then none
      else
        match adapterFallback env.getAdapter debug_return_raw cfg provider intent with
        | some r => some r
        | none =>
          some (RunResult.res "error" run_id none
            (some ("SSO required and no adapter for provider " ++ provider)) none)
    else
      if env.attempt_login then none
      else
        match adapterFallback env.getAdapter debug_return_raw cfg provider intent with
        | some r => some r
        | none =>
          some (RunResult.res "error" run_id none
            (some ("login failed and no adapter for provider " ++ provider)) none)
  else none

/-- The body of the `with sync_playwright()` block once the browser is up
(everything after `_launch` through the final `_result`, with the
`finally: close` appended to each exit's trace). -/
def createTicketBody (env : RunEnv) (debug_return_raw use_mock_dom : Bool)
    (stats : List (String × SelStat)) (cfg : ProviderCfg) (provider : String)
    (intent : Intent) (run_id : String) (isPersistent : Bool) :
    RunResult × List BrowserEv :=
  let navEvents :=
    if cfg.base_url.isEmpty then ([] : List BrowserEv)
    else [BrowserEv.navigated cfg.base_url]
  let loginEvents := if cfg.login then [BrowserEv.loginFlow] else ([] : List BrowserEv)
  match loginSection env debug_return_raw cfg provider intent run_id isPersistent with
  | some r =>
    (r, BrowserEv.launched :: navEvents ++ loginEvents ++ [BrowserEv.closed])
  | none =>
    let steps0 := intent.steps
    let inferredPair :=
      if pyFalsySteps steps0 then
        match infer_steps_with_llm use_mock_dom env.llmInfer with
        | some inf =>
          (inf.steps.getD [],
           if fieldsTruthy inf.fields then
             { intent with
               fields := some (dictUpdate (intent.fields.getD []) (inf.fields.getD [])) }
           else intent)
        | none => (steps0.getD [], intent)
      else (steps0.getD [], intent)
    let stepsList := inferredPair.1
    let intent2 := inferredPair.2
    if stepsList.isEmpty then
      match adapterFallback env.getAdapter debug_return_raw cfg provider intent with
      | some r =>
        (r, BrowserEv.launched :: navEvents ++ loginEvents ++ [BrowserEv.closed])
      | none =>
        (RunResult.res "error" run_id none
          (some ("no steps and no adapter for provider " ++ provider)) none,
         BrowserEv.launched :: navEvents ++ loginEvents ++ [BrowserEv.closed])
    else
      let er := execute_steps stats env.fillEnv env.clickEnv env.labelEnv intent2
        stepsList 2
      let sub := attempt_submit env.submitEnv cfg.submit_selectors
      let ok := er.1 || sub.1.1
      (RunResult.res (if ok then "ok" else "failed") run_id none none
        (some stepsList.length),
       BrowserEv.launched :: navEvents ++ loginEvents ++
         [BrowserEv.stepsExecuted, BrowserEv.submitAttempted,
          BrowserEv.diagnosticsSaved, BrowserEv.closed])

/-- The outermost `except Exception:` handler of `create_ticket`: one last
adapter fallback, else the generic error dict (which carries no run id). -/
def handleUnhandled (env : RunEnv) (debug_return_raw : Bool) (cfg : ProviderCfg)
    (provider : String) (intent : Intent) : RunResult :=
  match resolve_adapter env.getAdapter cfg provider with
  | some ad =>
    match ad.createTicket intent with
    | Except.ok r => RunResult.wrapped provider (stripRaw debug_return_raw r)
    | Except.error _ => RunResult.plainError "unhandled exception during UI run"
  | none => RunResult.plainError "unhandled exception during UI run"

/-- `GenericUIAgent.create_ticket`.  `_prepare_base_url` substitutes
environment placeholders into the configured template — a pure string
transformation represented by the configured URL itself. -/
def create_ticket (env : RunEnv) (debug_return_raw use_mock_dom : Bool)
    (provider_configs : List (String × ProviderCfg)) (stats : List (String × SelStat))
    (provider0 : String) (intent : Intent) (dry_run : Bool) (run_id : String) :
    Except PyExc RunResult × List BrowserEv :=
  let provider := pyLower provider0
  let cfg := (provider_configs.lookup provider).getD emptyCfg
  if dry_run then
    (Except.ok (RunResult.res "dry-run" run_id (some (intent.steps.getD [])) none none),
     [])
  else
    match env.launch with
    | Except.error _ =>
      (Except.ok (handleUnhandled env debug_return_raw cfg provider intent),
       [BrowserEv.launched])
    | Except.ok isPersistent =>
      let body := createTicketBody env debug_return_raw use_mock_dom stats cfg provider
        intent run_id isPersistent
      (Except.ok body.1, body.2)

/-- The collaborators of the `agents/ui_agent.py` shim: the
`providers/<name>.json` existence probe of `_provider_config_exists`, and
the two loads performed by `GenericUIAgent.__init__` —
`_load_provider_configs` (which RAISES when the providers directory is
missing or holds no config) and `_load_selector_stats` (fully guarded,
`{}` on failure). -/
structure ShimEnv where
  providerFileExists : String → Bool
  loadConfigs : Except PyExc (List (String × ProviderCfg))
  loadStats : List (String × SelStat)
  run : RunEnv

/-- `agents/ui_agent.py: create_ticket(intent, provider, dry_run, ...)`. -/
def ui_create_ticket (shim : ShimEnv) (debug_return_raw use_mock_dom : Bool)
    (intent : Intent) (provider : String) (dry_run : Bool) (run_id : String) :
    Except PyExc RunResult :=
  if provider.isEmpty then
    Except.ok (RunResult.plainError "provider is required")
  else
    let pname := pyLower (pyStrip provider)
    if !(shim.providerFileExists pname || (shim.run.getAdapter pname).isSome) then
      Except.ok (RunResult.plainError
        ("unknown provider " ++ sq ++ pname ++ sq ++ ": no providers/" ++ pname ++
          ".json and no registered adapter"))
    else
      -- `agent = get_agent(...)` sits OUTSIDE the try/except: a constructor
      -- exception propagates to the shim's caller.
      match shim.loadConfigs with
      | Except.error e => Except.error e
      | Except.ok cfgs =>
        match (create_ticket shim.run debug_return_raw use_mock_dom cfgs shim.loadStats
            pname intent dry_run run_id).1 with
        | Except.ok r => Except.ok r
        | Except.error e =>
          match shim.run.getAdapter pname with
          | some ad =>
            match ad.createTicket intent with
            | Except.ok r => Except.ok (RunResult.wrapped pname r)
            | Except.error _ =>
              Except.ok (RunResult.plainError
                ("exception creating ticket and adapter fallback failed: " ++ e))
          | none => Except.ok (RunResult.plainError e)

/-- Python `needle in hay` on strings. -/
def listIsLeading : List Char → List Char → Bool
  | [], _ => true
  | _ :: _, [] => false
  | a :: as, b :: bs => a == b && listIsLeading as bs

def strContainsAux (needle : List Char) : List Char → Bool
  | [] => needle.isEmpty
  | c :: rest => listIsLeading needle (c :: rest) || strContainsAux needle rest

def strContains (hay needle : String) : Bool :=
  strContainsAux needle.data hay.data

theorem listIsLeading_append (n t : List Char) : listIsLeading n (n ++ t) = true := by
  induction n with
  | nil => simp [listIsLeading]
  | cons a as ih => simp [listIsLeading, ih]

theorem strContainsAux_nil (l : List Char) : strContainsAux [] l = true := by
  cases l with
  | nil => simp [strContainsAux]
  | cons c rest => simp [strContainsAux, listIsLeading]

theorem strContains_append_right (a b : String) : strContains (a ++ b) a = true := by
  rw [strContains, String.data_append]
  rcases h : a.data with _ | ⟨c, rest⟩
  · rw [List.nil_append]
    exact strContainsAux_nil b.data
  · rw [List.cons_append, strContainsAux]
    have hl := listIsLeading_append (c :: rest) b.data
    rw [List.cons_append] at hl
    simp [hl]

/-! ### Concrete collaborators used by the closed theorems -/

def stubAdapter : Adapter := ⟨fun _ => Except.ok ⟨"ok", none, none⟩⟩

def runEnvStub : RunEnv where
  launch := Except.ok false
  gotoRaises := false
  ssoDetected := false
  ssoMarker := false
  attempt_login := false
  getAdapter := fun _ => some stubAdapter
  llmInfer := none
  fillEnv := fun _ _ _ => FillAttempt.waitTimeout
  clickEnv := fun _ _ _ => ClickAttempt.timeout
  labelEnv := fun _ => none
  submitEnv := submitEnvAllFail

def runEnvNoAdapter : RunEnv :=
  { runEnvStub with getAdapter := fun _ => none }

def intentNoSteps : Intent := ⟨none, none, some "subj", some "desc"⟩

def sampleStep : Step :=
  Step.mk ⟨some "click", some ["button"], none, none, none, none, none, none⟩

def intentWithSteps : Intent := ⟨some [sampleStep], none, some "s", some "d"⟩

/-- The `RuntimeError` message raised by `_load_provider_configs` when the
providers directory is missing. -/
def providersDirMissingMsg : String :=
  "providers directory not found: providers/ -- it must contain provider JSON files (e.g. zendesk.json, freshdesk.json)"

/-- A deployment whose `providers/` directory is missing but whose adapter
registry knows the provider (so the shim's validation passes and it
reaches agent construction). -/
def brokenShim : ShimEnv where
  providerFileExists := fun _ => false
  loadConfigs := Except.error providersDirMissingMsg
  loadStats := []
  run := runEnvStub

def healthyShim : ShimEnv where
  providerFileExists := fun _ => false
  loadConfigs := Except.ok []
  loadStats := []
  run := runEnvStub

/-! ### C1: no exception escapes `create_ticket` -/

/-- C1 counterexample: the shim constructs the agent (`get_agent`, hence
`GenericUIAgent.__init__` → `_load_provider_configs`) OUTSIDE its
`try/except`; when the providers directory is missing, that constructor
`RuntimeError` propagates out of the top-level `create_ticket` to the
caller instead of a structured result dictionary. -/
theorem create_ticket_exception_counterexample :
    ui_create_ticket brokenShim false true intentNoSteps "zendesk" false "r1" =
      Except.error providersDirMissingMsg ∧
    ¬ ∃ r, ui_create_ticket brokenShim false true intentNoSteps "zendesk" false "r1" =
      Except.ok r := by
  refine ⟨rfl, ?_⟩
  rintro ⟨r, h⟩
  rw [(rfl : ui_create_ticket brokenShim false true intentNoSteps "zendesk" false "r1" =
    Except.error providersDirMissingMsg)] at h
  exact Except.noConfusion h

theorem create_ticket_never_raises (env : RunEnv) (d u : Bool)
    (cfgs : List (String × ProviderCfg)) (stats : List (String × SelStat))
    (provider : String) (intent : Intent) (dry_run : Bool) (run_id : String) :
    ∃ r, (create_ticket env d u cfgs stats provider intent dry_run run_id).1 =
      Except.ok r := by
  cases dry_run with
  | true => exact ⟨_, rfl⟩
  | false =>
    rcases hl : env.launch with e | ip
    · simp only [create_ticket, hl]
      exact ⟨_, rfl⟩
    · simp only [create_ticket, hl]
      exact ⟨_, rfl⟩

/-- C1, amended: once the agent constructs successfully (the provider
configuration store loads), no exception escapes: every execution path of
the shim `create_ticket` — and every path of the method
`GenericUIAgent.create_ticket` unconditionally, for every collaborator
behaviour including a raising browser launch and raising adapters —
returns a structured result.  (Agent construction itself, which the shim
performs outside its `try/except`, may still propagate a configuration
error, per the counterexample.) -/
theorem create_ticket_no_escape (shim : ShimEnv) (env : RunEnv) (d u : Bool)
    (cfgs cfgs0 : List (String × ProviderCfg)) (stats : List (String × SelStat))
    (provider : String) (intent : Intent) (dry_run : Bool) (run_id : String)
    (hload : shim.loadConfigs = Except.ok cfgs0) :
    (∃ r, ui_create_ticket shim d u intent provider dry_run run_id = Except.ok r) ∧
    (∃ r, (create_ticket env d u cfgs stats provider intent dry_run run_id).1 =
      Except.ok r) := by
  refine ⟨?_, create_ticket_never_raises env d u cfgs stats provider intent dry_run run_id⟩
  rw [ui_create_ticket]
  by_cases hp : provider.isEmpty
  · rw [if_pos hp]
    exact ⟨_, rfl⟩
  · rw [if_neg hp]
    by_cases hv : (shim.providerFileExists (pyLower (pyStrip provider)) ||
        (shim.run.getAdapter (pyLower (pyStrip provider))).isSome) = true
    · simp only [hv, Bool.not_true, Bool.false_eq_true, if_false, hload]
      rcases create_ticket_never_raises shim.run d u cfgs0 shim.loadStats
        (pyLower (pyStrip provider)) intent dry_run run_id with ⟨r, hr⟩
      rw [hr]
      exact ⟨r, rfl⟩
    · simp only [Bool.not_eq_true] at hv
      simp only [hv, Bool.not_false, if_true]
      exact ⟨_, rfl⟩

/-- Closed witness for the amended C1: a well-formed deployment returns a
structured result for provider `"zendesk"`. -/
theorem create_ticket_no_escape_witness :
    healthyShim.loadConfigs = Except.ok [] ∧
    ∃ r, ui_create_ticket healthyShim false true intentNoSteps "zendesk" false "r9" =
      Except.ok r := by
  refine ⟨rfl, ?_⟩
  exact (create_ticket_no_escape healthyShim runEnvStub false true [] [] []
    "zendesk" intentNoSteps false "r9" rfl).1

/-! ### C2: dry-run short-circuits before any browser interaction -/

/-- C2: with `dry_run=True` and a non-empty `intent.steps`, `create_ticket`
returns `{status: "dry-run", steps: <the same steps>}` (plus the run id)
and its browser-event trace is empty: no browser is launched and no page
is touched before returning. -/
theorem dry_run_short_circuit (env : RunEnv) (d u : Bool)
    (cfgs : List (String × ProviderCfg)) (stats : List (String × SelStat))
    (provider : String) (intent : Intent) (run_id : String) (ss : List Step)
    (h1 : intent.steps = some ss) (_h2 : ss ≠ []) :
    create_ticket env d u cfgs stats provider intent true run_id =
      (Except.ok (RunResult.res "dry-run" run_id (some ss) none none), []) := by
  simp only [create_ticket, h1, Option.getD_some, if_true]

/-- Closed witness for C2: a one-step intent dry-runs to exactly that step
list with an empty browser trace. -/
theorem dry_run_short_circuit_witness :
    intentWithSteps.steps = some [sampleStep] ∧ [sampleStep] ≠ [] ∧
    create_ticket runEnvStub false true [] [] "zendesk" intentWithSteps true "r7" =
      (Except.ok (RunResult.res "dry-run" "r7" (some [sampleStep]) none none), []) := by
  refine ⟨rfl, by simp, ?_⟩
  exact dry_run_short_circuit runEnvStub false true [] [] "zendesk" intentWithSteps
    "r7" [sampleStep] rfl (by simp)

/-! ### C8: the no-steps-no-adapter error path -/

/-- A provider config that declares a login block (and nothing else of
relevance). -/
def cfgLoginOnly : ProviderCfg :=
  { base_url := "https://example.invalid", login := true,
    open_new_selectors := [], submit_selectors := [], adapter := none }

/-- C8 counterexample: a run that satisfies all three stated conditions —
the intent has no steps, the deterministic-mock flag disables inference,
and no adapter is registered — but whose provider config declares a login
block and whose scripted login fails.  `create_ticket` then returns the
`login failed and no adapter` error before ever reaching the step
acquisition stage, so the error string does not contain
`"no steps and no adapter"`. -/
theorem no_steps_error_counterexample :
    (pyFalsySteps intentNoSteps.steps = true ∧
      infer_steps_with_llm true runEnvNoAdapter.llmInfer = none ∧
      runEnvNoAdapter.getAdapter "zendesk" = none) ∧
    (create_ticket runEnvNoAdapter false true [("zendesk", cfgLoginOnly)] []
        "zendesk" intentNoSteps false "r2").1 =
      Except.ok (RunResult.res "error" "r2" none
        (some "login failed and no adapter for provider zendesk") none) ∧
    strContains "login failed and no adapter for provider zendesk"
      "no steps and no adapter" = false := by
  exact ⟨⟨rfl, rfl, rfl⟩, rfl, by decide⟩

/-- C8, amended: if additionally the browser session starts and the
provider's config declares no login block (so the run reaches step
acquisition; a failed login or an SSO wall would otherwise produce its own
`login failed ...`/`SSO required ...` error first, per the counterexample),
then with no intent steps, mock-disabled inference and no resolvable
adapter the result has status `"error"` and its error string contains
`"no steps and no adapter"`. -/
theorem no_steps_no_adapter_error (env : RunEnv) (d : Bool)
    (provider_configs : List (String × ProviderCfg)) (stats : List (String × SelStat))
    (provider : String) (intent : Intent) (run_id : String) (ip : Bool)
    (hlogin : ((provider_configs.lookup (pyLower provider)).getD emptyCfg).login = false)
    (hlaunch : env.launch = Except.ok ip)
    (hsteps : pyFalsySteps intent.steps = true)
    (hadapter : resolve_adapter env.getAdapter
      ((provider_configs.lookup (pyLower provider)).getD emptyCfg) (pyLower provider) = none) :
    (create_ticket env d true provider_configs stats provider intent false run_id).1 =
      Except.ok (RunResult.res "error" run_id none
        (some ("no steps and no adapter for provider " ++ pyLower provider)) none) ∧
    strContains ("no steps and no adapter for provider " ++ pyLower provider)
      "no steps and no adapter" = true := by
  constructor
  · have hnil : intent.steps.getD [] = [] := by
      rcases h : intent.steps with _ | l
      · rfl
      · rcases l with _ | ⟨s, rest⟩
        · rfl
        · rw [h] at hsteps
          exact absurd hsteps (by simp [pyFalsySteps])
    simp only [create_ticket, hlaunch, createTicketBody, loginSection, hlogin,
      Bool.false_eq_true, if_false, infer_steps_with_llm, if_true, hsteps, hnil,
      adapterFallback, hadapter, List.isEmpty_nil]
  · have hlit : ("no steps and no adapter for provider " : String) =
        "no steps and no adapter" ++ " for provider " := by decide
    rw [hlit, String.append_assoc]
    exact strContains_append_right _ _

/-- Closed witness for the amended C8: an unknown provider (empty config,
hence no login block) with an empty adapter registry and a step-less
intent yields the `no steps and no adapter` error. -/
theorem no_steps_no_adapter_error_witness :
    (create_ticket runEnvNoAdapter false true [] [] "freshdesk" intentNoSteps
        false "r3").1 =
      Except.ok (RunResult.res "error" "r3" none
        (some ("no steps and no adapter for provider " ++ pyLower "freshdesk")) none) ∧
    strContains ("no steps and no adapter for provider " ++ pyLower "freshdesk")
      "no steps and no adapter" = true := by
  exact no_steps_no_adapter_error runEnvNoAdapter false [] [] "freshdesk"
    intentNoSteps "r3" false rfl rfl rfl rfl

/-! ## Redaction (`_redact_text`, `_redact_obj`, `GenericUIAgent._log_step`)

`_redact_text` first substitutes every match of the email pattern
`([A-Za-z0-9._%+\-]+@[A-Za-z0-9.\-]+\.[A-Za-z]{2,})` with
`[REDACTED_EMAIL]`, then every match of
`(?i)(api[_-]?key|token)["']?\s*[:=]\s*['"]?[\w\-\.]{8,}['"]?` with
`\1: [REDACTED]`.  The embedding reproduces `re.sub` semantics for these
two concrete patterns: scan left to right, at each position take the
backtracking engine's preferred match — for the email pattern that is the
maximal local-part run, then the longest domain run that still leaves a
dot followed by at least two letters, with the letter run taken maximally;
matching resumes after each replacement.  (`\s` is modelled over the ASCII
whitespace characters.) -/

def isLocalChar (c : Char) : Bool :=
  c.isAlpha || c.isDigit || c == '.' || c == '_' || c == '%' || c == '+' || c == '-'

def isDomainChar (c : Char) : Bool :=
  c.isAlpha || c.isDigit || c == '.' || c == '-'

def isTldChar (c : Char) : Bool :=
  c.isAlpha

/-- Try domain length `k` (i.e. a literal dot at index `k` of the domain
run): succeeds when at least two letters follow the dot, consuming the
maximal letter run. -/
def domainSplitAt (drun : List Char) (k : Nat) : Option Nat :=
  if 1 ≤ k ∧ drun[k]? = some '.' then
    let tl := ((drun.drop (k + 1)).takeWhile isTldChar).length
    if 2 ≤ tl then some (k + 1 + tl) else none
  else none

/-- The greedy `[A-Za-z0-9.\-]+` backtracks from the longest domain length
down to 1. -/
def bestDomainSplitGo (drun : List Char) : Nat → Option Nat
  | 0 => none
  | k + 1 =>
    match domainSplitAt drun (k + 1) with
    | some m => some m
    | none => bestDomainSplitGo drun k

def bestDomainSplit (drun : List Char) : Option Nat :=
  match drun.length with
  | 0 => none
  | m + 1 => bestDomainSplitGo drun m

/-- Attempt the email pattern at the head of `s`; on success return the
match length and the remainder of the string. -/
def tryMatchHere (s : List Char) : Option (Nat × List Char) :=
  match s.takeWhile isLocalChar, s.dropWhile isLocalChar with
  | [], _ => none
  | loc :: locs, '@' :: r2 =>
    let drun := r2.takeWhile isDomainChar
    let rest := r2.dropWhile isDomainChar
    match bestDomainSplit drun with
    | some m => some ((loc :: locs).length + 1 + m, drun.drop m ++ rest)
    | none => none
  | _ :: _, _ => none

def redactTag : List Char := "[REDACTED_EMAIL]".data

def redactEmailsGo : Nat → List Char → List Char
  | 0, s => s
  | _ + 1, [] => []
  | fuel + 1, c :: rest =>
    match tryMatchHere (c :: rest) with
    | some (_, after) => redactTag ++ redactEmailsGo fuel after
    | none => c :: redactEmailsGo fuel rest

/-- The email substitution pass of `_redact_text` (every match consumes at
least six characters, so `s.length` steps of fuel always suffice). -/
def redactEmails (s : List Char) : List Char :=
  redactEmailsGo s.length s

/-- Whole-string email check (`re.fullmatch` of the email pattern): the
greedy match at position 0 consumes everything. -/
def isEmailMatch (s : String) : Bool :=
  match tryMatchHere s.data with
  | some (_, after) => after.isEmpty
  | none => false

def isWordChar (c : Char) : Bool := c.isAlpha || c.isDigit || c == '_'

def isTokenValueChar (c : Char) : Bool := isWordChar c || c == '-' || c == '.'

def isPySpace (c : Char) : Bool :=
  c == ' ' || c == '\t' || c == '\n' || c == '\r' || c == '\x0b' || c == '\x0c'

def isQuoteChar (c : Char) : Bool := c == '"' || c == Char.ofNat 39

/-- Case-insensitive keyword prefix test (the pattern is compiled with
`(?i)`; `kw` is given lowercase). -/
def matchKeywordCI : List Char → List Char → Bool
  | [], _ => true
  | _ :: _, [] => false
  | k :: ks, c :: cs => (Char.toLower c == k) && matchKeywordCI ks cs

/-- Group 1, `api[_-]?key|token`: first alternative first; inside it the
optional `[_-]` is tried with the character before backtracking to the
empty option. -/
def tokenKeywordLen (s : List Char) : Option Nat :=
  if matchKeywordCI "api".data s then
    match s.drop 3 with
    | c :: cs =>
      if (c == '_' || c == '-') && matchKeywordCI "key".data cs then some 7
      else if matchKeywordCI "key".data (c :: cs) then some 6
      else if matchKeywordCI "token".data s then some 5
      else none
    | [] => if matchKeywordCI "token".data s then some 5 else none
  else if matchKeywordCI "token".data s then some 5 else none

/-- The rest of the token pattern after group 1:
`["']?\s*[:=]\s*['"]?[\w\-\.]{8,}['"]?` (greedy runs; the optional quotes
need no backtracking because a quote can satisfy neither `\s`/`[:=]` nor
the value class). -/
def tokenTail (s : List Char) : Option Nat :=
  let q1s := match s with
    | c :: cs => if isQuoteChar c then (1, cs) else (0, s)
    | [] => (0, s)
  let sp1 := (q1s.2.takeWhile isPySpace).length
  match q1s.2.dropWhile isPySpace with
  | c :: cs =>
    if c == ':' || c == '=' then
      let sp2 := (cs.takeWhile isPySpace).length
      let s3 := cs.dropWhile isPySpace
      let q2s := match s3 with
        | b :: bs => if isQuoteChar b then (1, bs) else (0, s3)
        | [] => (0, s3)
      let run := (q2s.2.takeWhile isTokenValueChar).length
      if 8 ≤ run then
        let q3 := match q2s.2.drop run with
          | b :: _ => if isQuoteChar b then 1 else 0
          | [] => 0
        some (q1s.1 + sp1 + 1 + sp2 + q2s.1 + run + q3)
      else none
    else none
  | [] => none

/-- Attempt the api-key/token pattern at the head of `s`; on success return
the replacement text `\1: [REDACTED]` and the remainder. -/
def tryTokenMatchHere (s : List Char) : Option (List Char × List Char) :=
  match tokenKeywordLen s with
  | some kl =>
    match tokenTail (s.drop kl) with
    | some tl => some (s.take kl ++ (": [REDACTED]").data, s.drop (kl + tl))
    | none => none
  | none => none

def redactTokensGo : Nat → List Char → List Char
  | 0, s => s
  | _ + 1, [] => []
  | fuel + 1, c :: rest =>
    match tryTokenMatchHere (c :: rest) with
    | some (rep, after) => rep ++ redactTokensGo fuel after
    | none => c :: redactTokensGo fuel rest

def redactTokens (s : List Char) : List Char :=
  redactTokensGo s.length s

/-- `_redact_text`: the email pass, then the api-key/token pass on its
output. -/
def redact_text (s : String) : String :=
  ⟨redactTokens (redactEmails s.data)⟩

/-- `_redact_obj` on a string-valued dict: values are redacted, keys are
not. -/
def redactStrDict (d : List (String × String)) : List (String × String) :=
  d.map fun p => (p.1, redact_text p.2)

/-- The record `_log_step` persists: the payload
`{"run_id": .., "ts": .., "event": .., "step": .., ("extra": ..)}`
passed through `_redact_obj` (strings redacted value-wise, the timestamp
untouched) before `_append_logline` writes it. -/
structure LogPayload where
  run_id : Option String
  ts : Int
  event : String
  step : List (String × String)
  extra : Option (List (String × String))
deriving DecidableEq, Repr

def log_step (run_id : Option String) (ts : Int) (event : String)
    (step : List (String × String)) (extra : Option (List (String × String))) :
    LogPayload :=
  { run_id := run_id.map redact_text
    ts := ts
    event := redact_text event
    step := redactStrDict step
    extra := extra.map redactStrDict }

/-! ### Redaction lemmas: a fully delimited email is replaced whole -/

theorem takeWhile_append_of (p : Char → Bool) (xs ys : List Char)
    (hxs : ∀ c ∈ xs, p c = true) (hys : ∀ c ∈ ys.take 1, p c = false) :
    (xs ++ ys).takeWhile p = xs := by
  induction xs with
  | nil =>
    cases ys with
    | nil => rfl
    | cons y ys' =>
      have hy := hys y (by simp)
      simp [List.takeWhile_cons, hy]
  | cons x xs' ih =>
    have hx := hxs x (by simp)
    simp only [List.cons_append, List.takeWhile_cons, hx, if_true]
    rw [ih (fun c hc => hxs c (by simp [hc]))]

theorem dropWhile_append_of (p : Char → Bool) (xs ys : List Char)
    (hxs : ∀ c ∈ xs, p c = true) (hys : ∀ c ∈ ys.take 1, p c = false) :
    (xs ++ ys).dropWhile p = ys := by
  induction xs with
  | nil =>
    cases ys with
    | nil => rfl
    | cons y ys' =>
      have hy := hys y (by simp)
      simp [List.dropWhile_cons, hy]
  | cons x xs' ih =>
    have hx := hxs x (by simp)
    simp only [List.cons_append, List.dropWhile_cons, hx, if_true]
    exact ih (fun c hc => hxs c (by simp [hc]))

theorem getElem?_append_mid (d : List Char) (c : Char) (t : List Char) :
    (d ++ c :: t)[d.length]? = some c := by
  induction d with
  | nil => simp
  | cons a d' ih => simpa using ih

theorem getElem?_append_after (d : List Char) (c : Char) (t : List Char) (j : Nat) :
    (d ++ c :: t)[j + (d.length + 1)]? = t[j]? := by
  induction d with
  | nil => simp
  | cons a d' ih =>
    rw [show j + ((a :: d').length + 1) = (j + (d'.length + 1)) + 1 by
      simp [List.length_cons]; omega]
    simp [ih]

theorem drop_append_mid (d : List Char) (c : Char) (t : List Char) :
    (d ++ c :: t).drop (d.length + 1) = t := by
  induction d with
  | nil => simp
  | cons a d' ih => simp [ih]

theorem takeWhile_all (p : Char → Bool) (t : List Char)
    (h : ∀ c ∈ t, p c = true) : t.takeWhile p = t := by
  induction t with
  | nil => rfl
  | cons c cs ih =>
    have hc := h c (by simp)
    simp only [List.takeWhile_cons, hc, if_true]
    rw [ih (fun x hx => h x (by simp [hx]))]

theorem tld_domain (c : Char) (h : isTldChar c = true) : isDomainChar c = true := by
  rw [isTldChar] at h
  simp [isDomainChar, h]

theorem domainSplitAt_canonical (d t : List Char) (hd : d ≠ [])
    (ht2 : 2 ≤ t.length) (htt : ∀ c ∈ t, isTldChar c = true) :
    domainSplitAt (d ++ '.' :: t) d.length = some (d.length + 1 + t.length) := by
  have h1 : 1 ≤ d.length := List.length_pos.mpr hd
  have h2 : (d ++ '.' :: t)[d.length]? = some '.' := getElem?_append_mid d '.' t
  have h3 : (d ++ '.' :: t).drop (d.length + 1) = t := drop_append_mid d '.' t
  rw [domainSplitAt, if_pos ⟨h1, h2⟩]
  simp only [h3, takeWhile_all isTldChar t htt]
  rw [if_pos ht2]

theorem domainSplitAt_high (d t : List Char)
    (htt : ∀ c ∈ t, isTldChar c = true) (j : Nat) :
    domainSplitAt (d ++ '.' :: t) (d.length + 1 + j) = none := by
  have hidx : (d ++ '.' :: t)[d.length + 1 + j]? = t[j]? := by
    rw [show d.length + 1 + j = j + (d.length + 1) by omega]
    exact getElem?_append_after d '.' t j
  rw [domainSplitAt, if_neg]
  rintro ⟨-, hdot⟩
  rw [hidx] at hdot
  rcases ht : t[j]? with _ | c
  · rw [ht] at hdot
    exact Option.noConfusion hdot
  · rw [ht] at hdot
    have hc : isTldChar c = true := htt c (List.getElem?_mem ht)
    rw [Option.some.inj hdot] at hc
    exact absurd hc (by decide)

theorem bestDomainSplitGo_canonical (d t : List Char) (hd : d ≠ [])
    (ht2 : 2 ≤ t.length) (htt : ∀ c ∈ t, isTldChar c = true) :
    ∀ j, bestDomainSplitGo (d ++ '.' :: t) (d.length + j) =
      some (d.length + 1 + t.length) := by
  intro j
  induction j with
  | zero =>
    have hsplit := domainSplitAt_canonical d t hd ht2 htt
    rcases hdl : d.length with _ | m
    · exact absurd (List.length_eq_zero.mp hdl) hd
    · rw [hdl] at hsplit
      simp only [bestDomainSplitGo, hsplit]
  | succ j ih =>
    rw [Nat.add_succ]
    simp only [bestDomainSplitGo]
    rw [show d.length + j + 1 = d.length + 1 + j by omega,
      domainSplitAt_high d t htt j]
    exact ih

theorem bestDomainSplit_canonical (d t : List Char) (hd : d ≠ [])
    (ht2 : 2 ≤ t.length) (htt : ∀ c ∈ t, isTldChar c = true) :
    bestDomainSplit (d ++ '.' :: t) = some (d.length + 1 + t.length) := by
  have hlen : (d ++ '.' :: t).length = (d.length + t.length) + 1 := by
    simp [List.length_append]
    omega
  rw [bestDomainSplit.eq_def, hlen]
  exact bestDomainSplitGo_canonical d t hd ht2 htt t.length

/-- The greedy leftmost match at the start of a fully delimited email
consumes exactly the email: the maximal local run is the local part, the
domain backtracking stops at the last dot, and the letter run is the TLD. -/
theorem tryMatchHere_email (l d t rest : List Char)
    (hl : l ≠ []) (hll : ∀ c ∈ l, isLocalChar c = true)
    (hd : d ≠ []) (hdd : ∀ c ∈ d, isDomainChar c = true)
    (ht2 : 2 ≤ t.length) (htt : ∀ c ∈ t, isTldChar c = true)
    (hrest : ∀ c ∈ rest.take 1, isDomainChar c = false) :
    tryMatchHere (l ++ '@' :: ((d ++ '.' :: t) ++ rest)) =
      some (l.length + 1 + (d.length + 1 + t.length), rest) := by
  have h1 : (l ++ '@' :: ((d ++ '.' :: t) ++ rest)).takeWhile isLocalChar = l := by
    apply takeWhile_append_of isLocalChar l _ hll
    intro c hc
    simp at hc
    rw [hc]
    decide
  have h2 : (l ++ '@' :: ((d ++ '.' :: t) ++ rest)).dropWhile isLocalChar =
      '@' :: ((d ++ '.' :: t) ++ rest) := by
    apply dropWhile_append_of isLocalChar l _ hll
    intro c hc
    simp at hc
    rw [hc]
    decide
  have hall : ∀ c ∈ d ++ '.' :: t, isDomainChar c = true := by
    intro c hc
    rcases List.mem_append.mp hc with hc | hc
    · exact hdd c hc
    · rcases List.mem_cons.mp hc with hc | hc
      · rw [hc]; decide
      · exact tld_domain c (htt c hc)
  have h3 : ((d ++ '.' :: t) ++ rest).takeWhile isDomainChar = d ++ '.' :: t :=
    takeWhile_append_of isDomainChar _ rest hall hrest
  have h4 : ((d ++ '.' :: t) ++ rest).dropWhile isDomainChar = rest :=
    dropWhile_append_of isDomainChar _ rest hall hrest
  have hdrop : (d ++ '.' :: t).drop (d.length + 1 + t.length) = [] := by
    apply List.drop_eq_nil_of_le
    simp [List.length_append]
    omega
  obtain ⟨c0, l0, rfl⟩ := List.exists_cons_of_ne_nil hl
  rw [tryMatchHere.eq_def, h1, h2]
  simp only [h3, h4, bestDomainSplit_canonical d t hd ht2 htt, hdrop,
    List.nil_append]

theorem redactGo_nil (m : Nat) : redactEmailsGo m [] = [] := by
  cases m <;> rfl

theorem redactGo_nomatch (m : Nat) (c : Char) (rest : List Char)
    (h : tryMatchHere (c :: rest) = none) :
    redactEmailsGo (m + 1) (c :: rest) = c :: redactEmailsGo m rest := by
  rw [redactEmailsGo, h]

theorem redactGo_match (m : Nat) (c : Char) (rest : List Char) (len : Nat)
    (after : List Char) (h : tryMatchHere (c :: rest) = some (len, after)) :
    redactEmailsGo (m + 1) (c :: rest) = redactTag ++ redactEmailsGo m after := by
  rw [redactEmailsGo, h]

theorem tryMatchHere_head_false (c : Char) (xs : List Char)
    (h : isLocalChar c = false) : tryMatchHere (c :: xs) = none := by
  rw [tryMatchHere.eq_def]
  simp [List.takeWhile_cons, h]

/-- The email pass turns a space-delimited email into
`" [REDACTED_EMAIL] "`, independent of which email it is. -/
theorem redactEmails_delimited (l d t : List Char)
    (hl : l ≠ []) (hll : ∀ c ∈ l, isLocalChar c = true)
    (hd : d ≠ []) (hdd : ∀ c ∈ d, isDomainChar c = true)
    (ht2 : 2 ≤ t.length) (htt : ∀ c ∈ t, isTldChar c = true) :
    redactEmails (' ' :: (l ++ '@' :: ((d ++ '.' :: t) ++ [' ']))) =
      ' ' :: (redactTag ++ [' ']) := by
  obtain ⟨c0, l0, rfl⟩ := List.exists_cons_of_ne_nil hl
  have hmatch := tryMatchHere_email (c0 :: l0) d t [' '] hl hll hd hdd ht2 htt
    (by intro c hc; simp at hc; rw [hc]; decide)
  have hmatch' :
      tryMatchHere (c0 :: (l0 ++ '@' :: ((d ++ '.' :: t) ++ [' ']))) =
        some ((c0 :: l0).length + 1 + (d.length + 1 + t.length), [' ']) := by
    rw [show c0 :: (l0 ++ '@' :: ((d ++ '.' :: t) ++ [' '])) =
      (c0 :: l0) ++ '@' :: ((d ++ '.' :: t) ++ [' ']) from rfl]
    exact hmatch
  rw [redactEmails]
  rw [show (' ' :: ((c0 :: l0) ++ '@' :: ((d ++ '.' :: t) ++ [' ']))).length =
      (c0 :: (l0 ++ '@' :: ((d ++ '.' :: t) ++ [' ']))).length + 1 from by simp]
  rw [show (' ' :: ((c0 :: l0) ++ '@' :: ((d ++ '.' :: t) ++ [' ']))) =
      ' ' :: (c0 :: (l0 ++ '@' :: ((d ++ '.' :: t) ++ [' ']))) from rfl]
  rw [redactGo_nomatch _ _ _ (tryMatchHere_head_false ' ' _ (by decide))]
  rw [show (c0 :: (l0 ++ '@' :: ((d ++ '.' :: t) ++ [' ']))).length =
      (l0 ++ '@' :: ((d ++ '.' :: t) ++ [' '])).length + 1 from by simp]
  rw [redactGo_match _ _ _ _ _ hmatch']
  rcases hfl : (l0 ++ '@' :: ((d ++ '.' :: t) ++ [' '])).length with _ | m
  · exfalso
    simp [List.length_append] at hfl
  · rw [redactGo_nomatch _ _ _ (tryMatchHere_head_false ' ' _ (by decide)),
      redactGo_nil]

/-- The full `_redact_text` on a space-delimited email: the email pass
yields `" [REDACTED_EMAIL] "` and the api-key/token pass leaves that
fixed string unchanged. -/
theorem redact_text_delimited (l d t : List Char)
    (hl : l ≠ []) (hll : ∀ c ∈ l, isLocalChar c = true)
    (hd : d ≠ []) (hdd : ∀ c ∈ d, isDomainChar c = true)
    (ht2 : 2 ≤ t.length) (htt : ∀ c ∈ t, isTldChar c = true) :
    redact_text ⟨' ' :: (l ++ '@' :: ((d ++ '.' :: t) ++ [' ']))⟩ =
      " [REDACTED_EMAIL] " := by
  rw [redact_text]
  rw [show (⟨' ' :: (l ++ '@' :: ((d ++ '.' :: t) ++ [' ']))⟩ : String).data =
    ' ' :: (l ++ '@' :: ((d ++ '.' :: t) ++ [' '])) from rfl]
  rw [redactEmails_delimited l d t hl hll hd hdd ht2 htt]
  rfl

/-! ### Claim theorems about redaction -/

/-- C9 counterexample: the two payloads share the context `"x@y."` and
differ only in the embedded email address (`ab@c.de` vs `a0b@c.de`, both
full matches of the email pattern), yet the persisted audit-log records
differ: the greedy leftmost match absorbs the context differently
(`[REDACTED_EMAIL]@c.de` vs `x@[REDACTED_EMAIL]`), so the first entry also
retains the `@c.de` part of the first email un-replaced. -/
theorem redaction_counterexample :
    isEmailMatch "ab@c.de" = true ∧ isEmailMatch "a0b@c.de" = true ∧
    redact_text ("x@y." ++ "ab@c.de") = "[REDACTED_EMAIL]@c.de" ∧
    redact_text ("x@y." ++ "a0b@c.de") = "x@[REDACTED_EMAIL]" ∧
    log_step (some "r") 0 "fill_success" [("selector", "x@y." ++ "ab@c.de")] none ≠
      log_step (some "r") 0 "fill_success" [("selector", "x@y." ++ "a0b@c.de")] none := by
  refine ⟨by decide, by decide, by decide, by decide, by decide⟩

/-- C9, amended: `_redact_text` replaces each leftmost-greedy match of the
email pattern with `[REDACTED_EMAIL]` in every string field of the
persisted record; when the embedded email is delimited by characters
outside the email character classes (for example spaces), the whole email
is replaced, so two payloads differing only in such a delimited embedded
email produce identical persisted log entries.  With adversarial adjacent
context drawn from the email character classes the entries may differ, per
the counterexample. -/
theorem redaction_delimited_hyperproperty
    (l1 d1 t1 l2 d2 t2 : List Char) (run_id : Option String) (ts : Int)
    (ev key : String)
    (hl1 : l1 ≠ []) (hll1 : ∀ c ∈ l1, isLocalChar c = true)
    (hd1 : d1 ≠ []) (hdd1 : ∀ c ∈ d1, isDomainChar c = true)
    (ht21 : 2 ≤ t1.length) (htt1 : ∀ c ∈ t1, isTldChar c = true)
    (hl2 : l2 ≠ []) (hll2 : ∀ c ∈ l2, isLocalChar c = true)
    (hd2 : d2 ≠ []) (hdd2 : ∀ c ∈ d2, isDomainChar c = true)
    (ht22 : 2 ≤ t2.length) (htt2 : ∀ c ∈ t2, isTldChar c = true) :
    redact_text ⟨' ' :: (l1 ++ '@' :: ((d1 ++ '.' :: t1) ++ [' ']))⟩ =
      " [REDACTED_EMAIL] " ∧
    log_step run_id ts ev
        [(key, ⟨' ' :: (l1 ++ '@' :: ((d1 ++ '.' :: t1) ++ [' ']))⟩)] none =
      log_step run_id ts ev
        [(key, ⟨' ' :: (l2 ++ '@' :: ((d2 ++ '.' :: t2) ++ [' ']))⟩)] none := by
  have h1 := redact_text_delimited l1 d1 t1 hl1 hll1 hd1 hdd1 ht21 htt1
  have h2 := redact_text_delimited l2 d2 t2 hl2 hll2 hd2 hdd2 ht22 htt2
  refine ⟨h1, ?_⟩
  simp only [log_step, redactStrDict, List.map]
  rw [h1, h2]

/-- Closed witness for the amended C9: the payloads embedding
`alice@example.com` and `bob@test.org` (space-delimited) persist to the
same audit-log record. -/
theorem redaction_delimited_witness :
    redact_text ⟨' ' :: ("alice".data ++ '@' ::
        (("example".data ++ '.' :: "com".data) ++ [' ']))⟩ =
      " [REDACTED_EMAIL] " ∧
    log_step (some "r") 0 "fill_success"
        [("selector", ⟨' ' :: ("alice".data ++ '@' ::
          (("example".data ++ '.' :: "com".data) ++ [' ']))⟩)] none =
      log_step (some "r") 0 "fill_success"
        [("selector", ⟨' ' :: ("bob".data ++ '@' ::
          (("test".data ++ '.' :: "org".data) ++ [' ']))⟩)] none := by
  exact redaction_delimited_hyperproperty "alice".data "example".data "com".data
    "bob".data "test".data "org".data (some "r") 0 "fill_success" "selector"
    (by decide) (by decide) (by decide) (by decide) (by decide) (by decide)
    (by decide) (by decide) (by decide) (by decide) (by decide) (by decide)

end SupportAgent
